import Mathlib

/-!
Verification development for the MyDumper loader
(`br/pkg/lightning/mydump/loader.go`).

The Go source is shallowly embedded below: pure structs become Lean
structures, the mutable `mdLoaderSetup` state becomes explicit state
passing, Go's `int`/`int64` become `Int` (no arithmetic here can
overflow 64 bits on the inputs considered), errors become explicit
error values, and a Go `nil`-map-dereference panic is modelled as a
distinguished `crash` outcome.  External collaborators (storage,
the file-name classifier, the filter, the name router, statement
extraction) are passed in as function parameters, mirroring the
interfaces the Go code consumes.
-/

namespace MyDump

/-- Error classes used by the loader (the `common.Err*` terror classes).
`rawErr` stands for an error produced by an external collaborator
(the regexpr router or the file-name classifier) before any wrapping. -/
inductive ErrKind where
  | invalidSchemaFile
  | tableRoute
  | storageUnknown
  | tooManySourceFiles
  | invalidConfig
  | rawErr
deriving Repr, DecidableEq

/-- An error value: its terror class together with its message. -/
structure LoadError where
  kind : ErrKind
  msg : String
deriving Repr, DecidableEq

/-- `common.ErrTooManySourceFiles`. -/
def errTooManySourceFiles : LoadError :=
  { kind := .tooManySourceFiles, msg := "too many source files" }

/-- `common.ErrTableRoute.Wrap(err).GenWithStackByArgs()` as used in `setup`. -/
def wrapTableRoute (e : LoadError) : LoadError :=
  { kind := .tableRoute, msg := e.msg }

/-- `common.ErrStorageUnknown.Wrap(err).GenWithStack("list file failed")`. -/
def wrapStorageUnknown (e : LoadError) : LoadError :=
  { kind := .storageUnknown, msg := "list file failed: " ++ e.msg }

/-- Outcome of running a piece of Go code that may panic (`crash`),
return an error (`failed`), or succeed (`ok`). -/
inductive RunResult (ε α : Type) where
  | crash : RunResult ε α
  | failed (e : ε) : RunResult ε α
  | ok (a : α) : RunResult ε α
deriving Repr, DecidableEq

/-- `SourceType` from the mydump file router. -/
inductive SourceType where
  | SourceTypeIgnore
  | SourceTypeSchemaSchema
  | SourceTypeTableSchema
  | SourceTypeViewSchema
  | SourceTypeSQL
  | SourceTypeCSV
  | SourceTypeParquet
deriving Repr, DecidableEq, Inhabited

/-- Compression codec of a source file (values irrelevant to the claims). -/
inductive Compression where
  | CompressionNone
  | CompressionGZ
deriving Repr, DecidableEq, Inhabited

/-- `filter.Table`: a (schema, table) name pair. -/
structure FilterTable where
  Schema : String
  Name : String
deriving Repr, DecidableEq, Inhabited

/-- `SourceFileMeta`: analyzed metadata for one source file.
(`IndexRatio float64` is omitted: it is never read by the code under
verification.)  The Go field `Type` is kept under the name `fType`
because `Type` is reserved in Lean. -/
structure SourceFileMeta where
  Path : String
  fType : SourceType
  compression : Compression
  SortKey : String
  FileSize : Int
deriving Repr, DecidableEq, Inhabited

/-- The zero value of `SourceFileMeta`, as produced by Go's `FileInfo{...}`
composite literals that leave `FileMeta` (or some of its fields) unset. -/
def emptySourceFileMeta : SourceFileMeta :=
  { Path := "", fType := .SourceTypeIgnore, compression := .CompressionNone,
    SortKey := "", FileSize := 0 }

/-- `FileInfo`: a source-file descriptor paired with the (schema, table)
name it was classified under. -/
structure FileInfo where
  TableName : FilterTable
  FileMeta : SourceFileMeta
deriving Repr, DecidableEq, Inhabited

/-- `MDTableMeta` (field `IndexRatio float64` omitted, never read here). -/
structure MDTableMeta where
  DB : String
  Name : String
  SchemaFile : FileInfo
  DataFiles : List FileInfo
  charSet : String
  TotalSize : Int
  IsRowOrdered : Bool
deriving Repr, DecidableEq, Inhabited

/-- `MDDatabaseMeta`. -/
structure MDDatabaseMeta where
  Name : String
  SchemaFile : FileInfo
  Tables : List MDTableMeta
  Views : List MDTableMeta
  charSet : String
deriving Repr, DecidableEq, Inhabited

/-- Double every backquote in a character list. -/
def escapeChars : List Char → List Char
  | [] => []
  | c :: rest =>
    if c = '\x60' then c :: c :: escapeChars rest else c :: escapeChars rest

/-- Modelled from the spec: `common.EscapeIdentifier` lives outside the
provided sources; the spec asks for "an identifier-escaping rule for the
name", which backquotes the identifier, doubling embedded backquotes. -/
def EscapeIdentifier (name : String) : String :=
  "\x60" ++ String.mk (escapeChars name.data) ++ "\x60"

/-- Drop leading whitespace characters. -/
def dropWhitespace : List Char → List Char
  | [] => []
  | c :: rest => if c.isWhitespace then dropWhitespace rest else c :: rest

/-- Go's `strings.TrimSpace`: strip whitespace from both ends.  (Whitespace
is modelled by `Char.isWhitespace`; the claims only exercise ASCII space.) -/
def trimSpace (s : String) : String :=
  String.mk ((dropWhitespace (dropWhitespace s.data).reverse).reverse)

/-- `MDDatabaseMeta.GetSchema`.  `extract` stands for
`ExportStatement(ctx, store, ·, m.charSet)`; on extraction failure the Go
code only logs a warning and falls through to the synthesized default. -/
def MDDatabaseMeta.GetSchema (extract : FileInfo → Except String String)
    (m : MDDatabaseMeta) : String :=
  if m.SchemaFile.FileMeta.Path ≠ "" then
    match extract m.SchemaFile with
    | .error _ =>
      -- failure to extract: only a warning is logged, fall through
      "CREATE DATABASE IF NOT EXISTS " ++ EscapeIdentifier m.Name
    | .ok schema =>
      let schemaStr := trimSpace schema
      if schemaStr ≠ "" then
        schemaStr
      else
        "CREATE DATABASE IF NOT EXISTS " ++ EscapeIdentifier m.Name
  else
    "CREATE DATABASE IF NOT EXISTS " ++ EscapeIdentifier m.Name

/-- `MDTableMeta.GetSchema`.  `fileExists` stands for
`store.FileExists`, `extract` for `ExportStatement`. -/
def MDTableMeta.GetSchema (fileExists : String → Except String Bool)
    (extract : FileInfo → Except String String)
    (m : MDTableMeta) : Except String String :=
  let schemaFilePath := m.SchemaFile.FileMeta.Path
  if schemaFilePath = "" then
    .error ("schema file is missing for the table '" ++ m.DB ++ "." ++ m.Name ++ "'")
  else
    match fileExists schemaFilePath with
    | .error e => .error ("check table schema file exists error: " ++ e)
    | .ok false =>
      .error ("the provided schema file (" ++ schemaFilePath ++ ") for the table '"
        ++ m.DB ++ "." ++ m.Name ++ "' doesn't exist")
    | .ok true =>
      match extract m.SchemaFile with
      | .error e => .error e
      | .ok schema => .ok schema

/-- Association-list lookup with decidable keys (Go map read:
missing key yields `none`, corresponding to the zero value). -/
def alookup {κ β : Type} [DecidableEq κ] (k : κ) : List (κ × β) → Option β
  | [] => none
  | (k', v) :: rest => if k' = k then some v else alookup k rest

/-- Association-list overwrite-insert (Go map write).  New bindings are
prepended; `alookup` finds the newest binding, giving map semantics. -/
def ainsert {κ β : Type} [DecidableEq κ] (m : List (κ × β)) (k : κ) (v : β) :
    List (κ × β) :=
  (k, v) :: m

/-- The mutable part of `mdLoaderSetup` used by the catalog assembler:
the loader's database list plus the two lazy-upsert index maps. -/
structure SetupState where
  dbs : List MDDatabaseMeta
  dbIndexMap : List (String × Nat)
  tableIndexMap : List (FilterTable × Nat)
deriving Repr, DecidableEq, Inhabited

/-- The initial (empty) setup state built in `NewMyDumpLoaderWithStore`. -/
def initialSetupState : SetupState :=
  { dbs := [], dbIndexMap := [], tableIndexMap := [] }

/-- `mdLoaderSetup.insertDB`: returns the updated state, the index of the
database in `dbs`, and whether it already existed. -/
def insertDB (charSet : String) (st : SetupState) (f : FileInfo) :
    SetupState × Nat × Bool :=
  match alookup f.TableName.Schema st.dbIndexMap with
  | some dbIndex => (st, dbIndex, true)
  | none =>
    let idx := st.dbs.length
    let ptr : MDDatabaseMeta :=
      { Name := f.TableName.Schema, SchemaFile := f, Tables := [], Views := [],
        charSet := charSet }
    ({ st with dbs := st.dbs ++ [ptr],
               dbIndexMap := ainsert st.dbIndexMap f.TableName.Schema idx },
     idx, false)

/-- The synthetic path-less database `FileInfo` built by `insertTable` and
`insertView` for their database upsert. -/
def dummyDBFileInfo (schema : String) : FileInfo :=
  { TableName := { Schema := schema, Name := "" },
    FileMeta := { emptySourceFileMeta with fType := .SourceTypeSchemaSchema } }

/-- `mdLoaderSetup.insertTable`: returns the updated state, the database
index, the table index inside that database, `dbExists` and `tableExists`. -/
def insertTable (charSet : String) (st : SetupState) (fileInfo : FileInfo) :
    SetupState × Nat × Nat × Bool × Bool :=
  match insertDB charSet st (dummyDBFileInfo fileInfo.TableName.Schema) with
  | (st1, dbIdx, dbExists) =>
    match alookup fileInfo.TableName st1.tableIndexMap with
    | some tableIndex => (st1, dbIdx, tableIndex, dbExists, true)
    | none =>
      let dbMeta := st1.dbs.getD dbIdx default
      let tblIdx := dbMeta.Tables.length
      let ptr : MDTableMeta :=
        { DB := fileInfo.TableName.Schema, Name := fileInfo.TableName.Name,
          SchemaFile := fileInfo, DataFiles := [], charSet := charSet,
          TotalSize := 0, IsRowOrdered := true }
      ({ st1 with
          dbs := st1.dbs.set dbIdx { dbMeta with Tables := dbMeta.Tables ++ [ptr] },
          tableIndexMap := ainsert st1.tableIndexMap fileInfo.TableName tblIdx },
       dbIdx, tblIdx, dbExists, false)

/-- `mdLoaderSetup.insertView`: appends a view meta to its database's view
list when the host table is registered; returns `(state, dbExists, tableExists)`. -/
def insertView (charSet : String) (st : SetupState) (fileInfo : FileInfo) :
    SetupState × Bool × Bool :=
  match insertDB charSet st (dummyDBFileInfo fileInfo.TableName.Schema) with
  | (st1, dbIdx, dbExists) =>
    match alookup fileInfo.TableName st1.tableIndexMap with
    | some _ =>
      let dbMeta := st1.dbs.getD dbIdx default
      let meta : MDTableMeta :=
        { DB := fileInfo.TableName.Schema, Name := fileInfo.TableName.Name,
          SchemaFile := fileInfo, DataFiles := [], charSet := charSet,
          TotalSize := 0, IsRowOrdered := true }
      ({ st1 with
          dbs := st1.dbs.set dbIdx { dbMeta with Views := dbMeta.Views ++ [meta] } },
       dbExists, true)
    | none => (st1, dbExists, false)

/-- The database-schema pass of `mdLoaderSetup.setup` (lines 311-317). -/
def setupDbSchemas (charSet : String) (hasRouter : Bool) (st : SetupState) :
    List FileInfo → Except LoadError SetupState
  | [] => .ok st
  | fileInfo :: rest =>
    match insertDB charSet st fileInfo with
    | (st1, _, dbExists) =>
      if dbExists ∧ hasRouter = false then
        .error { kind := .invalidSchemaFile,
                 msg := "invalid database schema file, duplicated item - "
                   ++ fileInfo.FileMeta.Path }
      else
        setupDbSchemas charSet hasRouter st1 rest

/-- The table-schema pass of `mdLoaderSetup.setup` (lines 319-326). -/
def setupTableSchemas (charSet : String) (hasRouter : Bool) (st : SetupState) :
    List FileInfo → Except LoadError SetupState
  | [] => .ok st
  | fileInfo :: rest =>
    match insertTable charSet st fileInfo with
    | (st1, _, _, _, tableExists) =>
      if tableExists ∧ hasRouter = false then
        .error { kind := .invalidSchemaFile,
                 msg := "invalid table schema file, duplicated item - "
                   ++ fileInfo.FileMeta.Path }
      else
        setupTableSchemas charSet hasRouter st1 rest

/-- The view-schema pass of `mdLoaderSetup.setup` (lines 328-338). -/
def setupViewSchemas (charSet : String) (st : SetupState) :
    List FileInfo → Except LoadError SetupState
  | [] => .ok st
  | fileInfo :: rest =>
    match insertView charSet st fileInfo with
    | (st1, _, tableExists) =>
      if tableExists = false then
        .error { kind := .invalidSchemaFile,
                 msg := "invalid view schema file, miss host table schema for view '"
                   ++ fileInfo.TableName.Name ++ "'" }
      else
        setupViewSchemas charSet st1 rest

/-- The data-file pass of `mdLoaderSetup.setup` (lines 341-346): upsert the
owning table with a dummy `FileInfo` (zero file meta), append the data file
and accumulate its size. -/
def setupTableDatas (charSet : String) (st : SetupState) :
    List FileInfo → SetupState
  | [] => st
  | fileInfo :: rest =>
    match insertTable charSet st
        { TableName := fileInfo.TableName, FileMeta := emptySourceFileMeta } with
    | (st1, dbIdx, tblIdx, _, _) =>
      let dbMeta := st1.dbs.getD dbIdx default
      let tableMeta := dbMeta.Tables.getD tblIdx default
      let tableMeta' :=
        { tableMeta with
            DataFiles := tableMeta.DataFiles ++ [fileInfo],
            TotalSize := tableMeta.TotalSize + fileInfo.FileMeta.FileSize }
      let st2 :=
        { st1 with
            dbs := st1.dbs.set dbIdx
              { dbMeta with Tables := dbMeta.Tables.set tblIdx tableMeta' } }
      setupTableDatas charSet st2 rest

/-- Comparator for tables: `sort.SliceStable(less i j := Tables[i].TotalSize <
Tables[j].TotalSize)` sorts stably so that adjacent elements satisfy
`¬ less b a`, i.e. `a.TotalSize ≤ b.TotalSize`. -/
def tableSizeLE (a b : MDTableMeta) : Prop :=
  a.TotalSize ≤ b.TotalSize

instance : DecidableRel tableSizeLE :=
  fun a b => inferInstanceAs (Decidable (a.TotalSize ≤ b.TotalSize))

instance : IsTotal MDTableMeta tableSizeLE :=
  ⟨fun a b => Int.le_total a.TotalSize b.TotalSize⟩

instance : IsTrans MDTableMeta tableSizeLE :=
  ⟨fun _ _ _ => Int.le_trans⟩

/-- Lexicographic string order (Go's `<` on strings compares bytes; on the
underlying scalar-value sequences this is the same lexicographic order). -/
def strLE : List Char → List Char → Bool
  | [], _ => true
  | _ :: _, [] => false
  | a :: as, b :: bs =>
    if a < b then true else if b < a then false else strLE as bs

theorem strLE_total : ∀ as bs : List Char, strLE as bs = true ∨ strLE bs as = true := by
  intro as
  induction as with
  | nil => intro bs; left; rfl
  | cons a as ih =>
    intro bs
    cases bs with
    | nil => right; rfl
    | cons b bs =>
      by_cases hab : a < b
      · left; simp [strLE, hab]
      · by_cases hba : b < a
        · right; simp [strLE, hba]
        · have hEq : a = b := le_antisymm (not_lt.mp hba) (not_lt.mp hab)
          subst hEq
          simpa [strLE, hab] using ih bs

theorem strLE_trans : ∀ as bs cs : List Char,
    strLE as bs = true → strLE bs cs = true → strLE as cs = true := by
  intro as
  induction as with
  | nil => intro bs cs _ _; rfl
  | cons a as ih =>
    intro bs cs h1 h2
    cases bs with
    | nil => simp [strLE] at h1
    | cons b bs =>
      cases cs with
      | nil => simp [strLE] at h2
      | cons c cs =>
        simp only [strLE] at h1 h2 ⊢
        by_cases hab : a < b
        · by_cases hbc : b < c
          · simp [lt_trans hab hbc]
          · by_cases hcb : c < b
            · simp [hbc, hcb] at h2
            · have : b = c := le_antisymm (not_lt.mp hcb) (not_lt.mp hbc)
              subst this
              simp [hab]
        · by_cases hba : b < a
          · simp [hab, hba] at h1
          · have : a = b := le_antisymm (not_lt.mp hba) (not_lt.mp hab)
            subst this
            simp only [lt_self_iff_false, if_false] at h1
            by_cases hbc : a < c
            · simp [hbc]
            · by_cases hcb : c < a
              · simp [hbc, hcb] at h2
              · have : a = c := le_antisymm (not_lt.mp hcb) (not_lt.mp hbc)
                subst this
                simp only [lt_self_iff_false, if_false] at h2 ⊢
                exact ih bs cs h1 h2

/-- Comparator for data files within a table, by sort key. -/
def fileSortKeyLE (a b : FileInfo) : Prop :=
  strLE a.FileMeta.SortKey.data b.FileMeta.SortKey.data = true

instance : DecidableRel fileSortKeyLE :=
  fun a b =>
    inferInstanceAs (Decidable (strLE a.FileMeta.SortKey.data b.FileMeta.SortKey.data = true))

instance : IsTotal FileInfo fileSortKeyLE :=
  ⟨fun a b => strLE_total a.FileMeta.SortKey.data b.FileMeta.SortKey.data⟩

instance : IsTrans FileInfo fileSortKeyLE :=
  ⟨fun a b c => strLE_trans a.FileMeta.SortKey.data b.FileMeta.SortKey.data
    c.FileMeta.SortKey.data⟩

/-- The final sorting loop of `mdLoaderSetup.setup` (lines 348-363):
within each database, stably sort the tables ascending by total size,
then stably sort each table's data files ascending by sort key.
(`sort.SliceStable` is embedded as `List.insertionSort` with the
non-strict comparator: a stable sort's output is uniquely determined by
the input order and the total preorder, so any stable sort is a faithful
embedding of any other.) -/
def sortTableFiles (tbMeta : MDTableMeta) : MDTableMeta :=
  { tbMeta with DataFiles := tbMeta.DataFiles.insertionSort fileSortKeyLE }

def sortDBs (dbs : List MDDatabaseMeta) : List MDDatabaseMeta :=
  dbs.map fun dbMeta =>
    { dbMeta with Tables := (dbMeta.Tables.insertionSort tableSizeLE).map sortTableFiles }

/-- The four bucket lists accumulated by the scanner
(`mdLoaderSetup.dbSchemas/tableSchemas/viewSchemas/tableDatas`). -/
structure Buckets where
  dbSchemas : List FileInfo
  tableSchemas : List FileInfo
  viewSchemas : List FileInfo
  tableDatas : List FileInfo
deriving Repr, DecidableEq, Inhabited

/-- `dbInfo` from `mdLoaderSetup.route`: a database-schema file meta plus
the reference count of files (db/table/view schema and data) for that name. -/
structure DbInfo where
  fileMeta : SourceFileMeta
  count : Int
deriving Repr, DecidableEq, Inhabited

/-- The `knownDBNames` map of the routing pass. -/
abbrev CountMap := List (String × DbInfo)

/-- `knownDBNames[schema].count++`.  In Go a missing key yields a nil
`*dbInfo`, and the increment dereferences it: that panic is modelled as
`none`. -/
def bumpCount (m : CountMap) (schema : String) : Option CountMap :=
  match alookup schema m with
  | none => none
  | some info => some (ainsert m schema { info with count := info.count + 1 })

/-- Increment the count of every file's schema, crashing on a missing key. -/
def bumpAll (m : CountMap) : List FileInfo → Option CountMap
  | [] => some m
  | info :: rest =>
    match bumpCount m info.TableName.Schema with
    | none => none
    | some m' => bumpAll m' rest

/-- Population phase of `mdLoaderSetup.route` (lines 437-452): count 1 per
database-schema file name (later duplicates overwrite), then one increment
per table-schema, view-schema and data file.  `none` models the Go panic
when a non-database file references a schema with no database-schema file. -/
def populateKnownDBNames (bkts : Buckets) : Option CountMap :=
  let m0 := bkts.dbSchemas.foldl
    (fun m info => ainsert m info.TableName.Schema
      { fileMeta := info.FileMeta, count := 1 }) []
  match bumpAll m0 bkts.tableSchemas with
  | none => none
  | some m1 =>
    match bumpAll m1 bkts.viewSchemas with
    | none => none
    | some m2 => bumpAll m2 bkts.tableDatas

/-- The name-routing function `r.Route` of the regexpr router. -/
abbrev RouteFn := String → String → Except String (String × String)

/-- `runRoute` (lines 454-478): apply the router to every `FileInfo` of one
bucket (iterating over a snapshot of the list, as Go's `range` does), doing
the reference-count bookkeeping when the database name changes; the
database-schema files synthesized for fresh target names are collected in
`appended` (Go appends them to `s.dbSchemas`). -/
def runRoute (rt : RouteFn) : List FileInfo → CountMap → List FileInfo →
    RunResult String (List FileInfo × CountMap × List FileInfo)
  | [], m, appended => .ok ([], m, appended)
  | info :: rest, m, appended =>
    match rt info.TableName.Schema info.TableName.Name with
    | .error e => .failed e
    | .ok (targetDB, targetTable) =>
      let rewritten : FileInfo :=
        { info with TableName := { Schema := targetDB, Name := targetTable } }
      if targetDB = info.TableName.Schema then
        match runRoute rt rest m appended with
        | .crash => .crash
        | .failed e => .failed e
        | .ok (rest', m', app') => .ok (rewritten :: rest', m', app')
      else
        match alookup info.TableName.Schema m with
        | none => .crash
        | some oldInfo =>
          let m1 := ainsert m info.TableName.Schema
            { oldInfo with count := oldInfo.count - 1 }
          let step : CountMap × List FileInfo :=
            match alookup targetDB m1 with
            | none =>
              -- fresh target: synthesize a schema file (count 1, then ++)
              (ainsert m1 targetDB { fileMeta := oldInfo.fileMeta, count := 2 },
               appended ++ [{ TableName := { Schema := targetDB, Name := "" },
                              FileMeta := oldInfo.fileMeta }])
            | some newInfo =>
              (ainsert m1 targetDB { newInfo with count := newInfo.count + 1 },
               appended)
          match runRoute rt rest step.1 step.2 with
          | .crash => .crash
          | .failed e => .failed e
          | .ok (rest', m', app') => .ok (rewritten :: rest', m', app')

/-- The final filter loop of `mdLoaderSetup.route` (lines 493-504): keep a
database-schema file iff its (routed) name's count is positive; a strictly
negative count returns the `ErrTableRoute` invariant error.  A missing key
would again be a nil dereference in Go, modelled as `crash`. -/
def removeRoutedSchemas (m : CountMap) : List FileInfo →
    RunResult LoadError (List FileInfo)
  | [] => .ok []
  | info :: rest =>
    match alookup info.TableName.Schema m with
    | none => .crash
    | some dbInfo =>
      if dbInfo.count > 0 then
        match removeRoutedSchemas m rest with
        | .crash => .crash
        | .failed e => .failed e
        | .ok kept => .ok (info :: kept)
      else if dbInfo.count < 0 then
        .failed { kind := .tableRoute,
                  msg := "something wrong happened when route "
                    ++ info.TableName.Schema ++ "." ++ info.TableName.Name }
      else
        removeRoutedSchemas m rest

/-- `mdLoaderSetup.route` (lines 426-506). -/
def route (router? : Option RouteFn) (bkts : Buckets) :
    RunResult LoadError Buckets :=
  match router? with
  | none => .ok bkts
  | some rt =>
    match populateKnownDBNames bkts with
    | none => .crash
    | some m =>
      match runRoute rt bkts.dbSchemas m [] with
      | .crash => .crash
      | .failed e => .failed { kind := .rawErr, msg := e }
      | .ok (dbS, m1, app1) =>
        match runRoute rt bkts.tableSchemas m1 [] with
        | .crash => .crash
        | .failed e => .failed { kind := .rawErr, msg := e }
        | .ok (tblS, m2, app2) =>
          match runRoute rt bkts.viewSchemas m2 [] with
          | .crash => .crash
          | .failed e => .failed { kind := .rawErr, msg := e }
          | .ok (viewS, m3, app3) =>
            match runRoute rt bkts.tableDatas m3 [] with
            | .crash => .crash
            | .failed e => .failed { kind := .rawErr, msg := e }
            | .ok (dataS, m4, app4) =>
              let dbSchemasAll := dbS ++ app1 ++ app2 ++ app3 ++ app4
              match removeRoutedSchemas m4 dbSchemasAll with
              | .crash => .crash
              | .failed e => .failed e
              | .ok remaining =>
                .ok { dbSchemas := remaining, tableSchemas := tblS,
                      viewSchemas := viewS, tableDatas := dataS }

/-- The classification result of the file router for one path. -/
structure RouteResult where
  Schema : String
  Name : String
  fType : SourceType
  compression : Compression
  Key : String
deriving Repr, DecidableEq, Inhabited

/-- `MDLoader.shouldSkip` (lines 419-424), in terms of the filter's two
decision functions. -/
def shouldSkip (matchSchema : String → Bool) (matchTable : String → String → Bool)
    (table : FilterTable) : Bool :=
  if table.Name.length = 0 then
    !(matchSchema table.Schema)
  else
    !(matchTable table.Schema table.Name)

/-- The walk loop of `mdLoaderSetup.listFiles` (lines 368-417): for every
entry, first increment the scanned-file counter and compare it against the
ceiling, then classify, then filter, then bucket by type.  The first error
aborts the walk, preserving the buckets accumulated so far. -/
def listFilesGo (classify : String → Except String (Option RouteResult))
    (skip : FilterTable → Bool) (maxScanFiles : Int) :
    List (String × Int) → Int → Buckets → Buckets × Option LoadError
  | [], _, bkts => (bkts, none)
  | (path, size) :: rest, scanned, bkts =>
    let scanned1 := scanned + 1
    if maxScanFiles > 0 ∧ scanned1 > maxScanFiles then
      (bkts, some errTooManySourceFiles)
    else
      match classify path with
      | .error e =>
        (bkts, some ⟨.rawErr,
          "apply file routing on file '" ++ path ++ "' failed: " ++ e⟩)
      | .ok none => listFilesGo classify skip maxScanFiles rest scanned1 bkts
      | .ok (some res) =>
        let info : FileInfo :=
          { TableName := { Schema := res.Schema, Name := res.Name },
            FileMeta := { Path := path, fType := res.fType,
                          compression := res.compression, SortKey := res.Key,
                          FileSize := size } }
        if skip info.TableName then
          listFilesGo classify skip maxScanFiles rest scanned1 bkts
        else
          let bkts1 :=
            match res.fType with
            | .SourceTypeSchemaSchema =>
              { bkts with dbSchemas := bkts.dbSchemas ++ [info] }
            | .SourceTypeTableSchema =>
              { bkts with tableSchemas := bkts.tableSchemas ++ [info] }
            | .SourceTypeViewSchema =>
              { bkts with viewSchemas := bkts.viewSchemas ++ [info] }
            | .SourceTypeSQL =>
              { bkts with tableDatas := bkts.tableDatas ++ [info] }
            | .SourceTypeCSV =>
              { bkts with tableDatas := bkts.tableDatas ++ [info] }
            | .SourceTypeParquet =>
              { bkts with tableDatas := bkts.tableDatas ++ [info] }
            | .SourceTypeIgnore => bkts
          listFilesGo classify skip maxScanFiles rest scanned1 bkts1

/-- `mdLoaderSetup.listFiles`, starting from a zero counter and empty
buckets. -/
def listFiles (classify : String → Except String (Option RouteResult))
    (skip : FilterTable → Bool) (maxScanFiles : Int)
    (entries : List (String × Int)) : Buckets × Option LoadError :=
  listFilesGo classify skip maxScanFiles entries 0
    { dbSchemas := [], tableSchemas := [], viewSchemas := [], tableDatas := [] }

/-- The route-assemble-sort tail of `mdLoaderSetup.setup` (lines 306-365),
given the scanned buckets and the pending "too many source files" error
(`gerr`). -/
def setupFromBuckets (charSet : String) (router? : Option RouteFn)
    (bkts : Buckets) (gerr : Option LoadError) :
    RunResult LoadError (List MDDatabaseMeta × Option LoadError) :=
  match route router? bkts with
  | .crash => .crash
  | .failed e => .failed (wrapTableRoute e)
  | .ok bkts1 =>
    match setupDbSchemas charSet router?.isSome initialSetupState bkts1.dbSchemas with
    | .error e => .failed e
    | .ok st1 =>
      match setupTableSchemas charSet router?.isSome st1 bkts1.tableSchemas with
      | .error e => .failed e
      | .ok st2 =>
        match setupViewSchemas charSet st2 bkts1.viewSchemas with
        | .error e => .failed e
        | .ok st3 =>
          .ok (sortDBs (setupTableDatas charSet st3 bkts1.tableDatas).dbs, gerr)

/-- `mdLoaderSetup.setup` (lines 291-366): scan, then route, assemble and
sort.  A non-ceiling listing error is wrapped as `ErrStorageUnknown` and
unwinds; the ceiling error is held in `gerr` and returned alongside the
finished catalog. -/
def setupGo (charSet : String)
    (classify : String → Except String (Option RouteResult))
    (matchSchema : String → Bool) (matchTable : String → String → Bool)
    (maxScanFiles : Int) (router? : Option RouteFn)
    (entries : List (String × Int)) :
    RunResult LoadError (List MDDatabaseMeta × Option LoadError) :=
  match listFiles classify (shouldSkip matchSchema matchTable) maxScanFiles entries with
  | (bkts, some e) =>
    if e.kind = .tooManySourceFiles then
      setupFromBuckets charSet router? bkts (some e)
    else
      .failed (wrapStorageUnknown e)
  | (bkts, none) => setupFromBuckets charSet router? bkts none

/-- The outcome of `NewMyDumpLoaderWithStore`: either a catalog, a catalog
together with the ceiling error, an error with no catalog, or a panic. -/
inductive LoaderResult where
  | success (dbs : List MDDatabaseMeta)
  | degraded (dbs : List MDDatabaseMeta) (e : LoadError)
  | failure (e : LoadError)
  | crashed
deriving Repr, DecidableEq

/-- `NewMyDumpLoaderWithStore` (lines 239-246): on a setup error that
`errors.ErrorEqual`s `common.ErrTooManySourceFiles` the populated loader is
returned together with the error; any other setup error returns no loader.
In `setupGo` the ceiling error is precisely the `some`-error of an `ok`
result, and early `failed` results never carry the ceiling kind. -/
def newMyDumpLoaderWithStore (charSet : String)
    (classify : String → Except String (Option RouteResult))
    (matchSchema : String → Bool) (matchTable : String → String → Bool)
    (maxScanFiles : Int) (router? : Option RouteFn)
    (entries : List (String × Int)) : LoaderResult :=
  match setupGo charSet classify matchSchema matchTable maxScanFiles router? entries with
  | .crash => .crashed
  | .failed e => .failure e
  | .ok (dbs, some g) => .degraded dbs g
  | .ok (dbs, none) => .success dbs

/-! ## Claims about schema text extraction (C7, C8, C9) -/

/-- C7: for a database whose recorded schema file path is empty, `GetSchema`
returns the synthesized `CREATE DATABASE IF NOT EXISTS` statement with the
identifier-escaped name, and it falls back to the same default whenever the
extracted text is empty or whitespace-only. -/
theorem c7_db_schema_default (extract : FileInfo → Except String String)
    (m : MDDatabaseMeta) :
    (m.SchemaFile.FileMeta.Path = "" →
      m.GetSchema extract
        = "CREATE DATABASE IF NOT EXISTS " ++ EscapeIdentifier m.Name) ∧
    (∀ s, extract m.SchemaFile = .ok s → trimSpace s = "" →
      m.GetSchema extract
        = "CREATE DATABASE IF NOT EXISTS " ++ EscapeIdentifier m.Name) := by
  constructor
  · intro h
    simp [MDDatabaseMeta.GetSchema, h]
  · intro s hs ht
    by_cases hp : m.SchemaFile.FileMeta.Path = ""
    · simp [MDDatabaseMeta.GetSchema, hp]
    · simp [MDDatabaseMeta.GetSchema, hp, hs, ht]

/-- A database meta with no recorded schema file, for the C7 witness. -/
def c7meta : MDDatabaseMeta :=
  { Name := "db0", SchemaFile := default, Tables := [], Views := [],
    charSet := "utf8mb4" }

/-- C7 witness: the whitespace-only fallback at a concrete input. -/
theorem c7_witness :
    MDDatabaseMeta.GetSchema (fun _ => .ok "  ") c7meta
      = "CREATE DATABASE IF NOT EXISTS " ++ EscapeIdentifier c7meta.Name :=
  (c7_db_schema_default (fun _ => .ok "  ") c7meta).2 "  " rfl (by decide)

/-- C8: `MDTableMeta.GetSchema` errors naming the table when no schema file
path is recorded, errors naming the file when the file does not exist, and
on successful extraction returns the content exactly as extracted, with no
fallback even for empty content. -/
theorem c8_table_schema (fe : String → Except String Bool)
    (ex : FileInfo → Except String String) (m : MDTableMeta) :
    (m.SchemaFile.FileMeta.Path = "" →
      m.GetSchema fe ex
        = .error ("schema file is missing for the table '"
            ++ m.DB ++ "." ++ m.Name ++ "'")) ∧
    (m.SchemaFile.FileMeta.Path ≠ "" →
      fe m.SchemaFile.FileMeta.Path = .ok false →
      m.GetSchema fe ex
        = .error ("the provided schema file (" ++ m.SchemaFile.FileMeta.Path
            ++ ") for the table '" ++ m.DB ++ "." ++ m.Name ++ "' doesn't exist")) ∧
    (∀ s, m.SchemaFile.FileMeta.Path ≠ "" →
      fe m.SchemaFile.FileMeta.Path = .ok true →
      ex m.SchemaFile = .ok s →
      m.GetSchema fe ex = .ok s) := by
  refine ⟨fun h => ?_, fun hp hf => ?_, fun s hp hf hx => ?_⟩
  · simp [MDTableMeta.GetSchema, h]
  · simp [MDTableMeta.GetSchema, hp, hf]
  · simp [MDTableMeta.GetSchema, hp, hf, hx]

/-- A table meta with a recorded schema file, for the C8 and C9 witnesses. -/
def c8meta : MDTableMeta :=
  { DB := "db1", Name := "t1",
    SchemaFile := ⟨⟨"db1", "t1"⟩,
      { emptySourceFileMeta with Path := "db1.t1-schema.sql" }⟩,
    DataFiles := [], charSet := "utf8mb4", TotalSize := 0, IsRowOrdered := true }

/-- C8 witness: empty extracted content is returned as-is (no fallback). -/
theorem c8_witness :
    MDTableMeta.GetSchema (fun _ => .ok true) (fun _ => .ok "") c8meta = .ok "" :=
  (c8_table_schema (fun _ => .ok true) (fun _ => .ok "") c8meta).2.2 ""
    (by decide) rfl rfl

/-- A database meta with a recorded schema file, for C9. -/
def c9dbMeta : MDDatabaseMeta :=
  { Name := "db0",
    SchemaFile := ⟨⟨"db0", ""⟩,
      { emptySourceFileMeta with Path := "db0-schema-create.sql" }⟩,
    Tables := [], Views := [], charSet := "utf8mb4" }

/-- C9 counterexample: the claim says that for BOTH the database and the
table variant an unreadable/missing schema file is reported as an error
naming the file.  For the database variant this is false: its `GetSchema`
has no error channel at all, and on extraction failure (here: the file
does not exist) it silently degrades to the synthesized default. -/
theorem c9_counterexample :
    MDDatabaseMeta.GetSchema (fun _ => .error "file doesn't exist") c9dbMeta
      = "CREATE DATABASE IF NOT EXISTS " ++ EscapeIdentifier "db0" := by
  decide

/-- C9 (amended): only the table variant reports an error naming the
missing file; the database variant logs a warning and silently falls back
to the synthesized default statement on any extraction failure. -/
theorem c9_missing_file_behavior (fe : String → Except String Bool)
    (ex : FileInfo → Except String String)
    (mt : MDTableMeta) (md : MDDatabaseMeta) :
    (mt.SchemaFile.FileMeta.Path ≠ "" →
      fe mt.SchemaFile.FileMeta.Path = .ok false →
      mt.GetSchema fe ex
        = .error ("the provided schema file (" ++ mt.SchemaFile.FileMeta.Path
            ++ ") for the table '" ++ mt.DB ++ "." ++ mt.Name ++ "' doesn't exist")) ∧
    (∀ e, md.SchemaFile.FileMeta.Path ≠ "" →
      ex md.SchemaFile = .error e →
      md.GetSchema ex
        = "CREATE DATABASE IF NOT EXISTS " ++ EscapeIdentifier md.Name) := by
  constructor
  · intro hp hf
    simp [MDTableMeta.GetSchema, hp, hf]
  · intro e hp hx
    simp [MDDatabaseMeta.GetSchema, hp, hx]

/-- C9 witness: both amended behaviors at concrete inputs. -/
theorem c9_witness :
    MDTableMeta.GetSchema (fun _ => .ok false) (fun _ => .ok "x") c8meta
      = .error ("the provided schema file (" ++ c8meta.SchemaFile.FileMeta.Path
          ++ ") for the table '" ++ c8meta.DB ++ "." ++ c8meta.Name
          ++ "' doesn't exist") ∧
    MDDatabaseMeta.GetSchema (fun _ => .error "io error") c9dbMeta
      = "CREATE DATABASE IF NOT EXISTS " ++ EscapeIdentifier c9dbMeta.Name :=
  ⟨(c9_missing_file_behavior (fun _ => .ok false) (fun _ => .ok "x")
      c8meta c9dbMeta).1 (by decide) rfl,
   (c9_missing_file_behavior (fun _ => .ok false) (fun _ => .error "io error")
      c8meta c9dbMeta).2 "io error" (by decide) rfl⟩

/-! ## Concrete fixtures used by witnesses and counterexamples -/

/-- A concrete classifier covering the spec's end-to-end scenario files. -/
def exClassify (path : String) : Except String (Option RouteResult) :=
  if path = "db1-schema-create.sql" then
    .ok (some ⟨"db1", "", .SourceTypeSchemaSchema, .CompressionNone, ""⟩)
  else if path = "db1.t1-schema.sql" then
    .ok (some ⟨"db1", "t1", .SourceTypeTableSchema, .CompressionNone, ""⟩)
  else if path = "db1.t1.1.sql" then
    .ok (some ⟨"db1", "t1", .SourceTypeSQL, .CompressionNone, "1"⟩)
  else if path = "db1.t1.2.sql" then
    .ok (some ⟨"db1", "t1", .SourceTypeSQL, .CompressionNone, "2"⟩)
  else if path = "db1.t2-schema.sql" then
    .ok (some ⟨"db1", "t2", .SourceTypeTableSchema, .CompressionNone, ""⟩)
  else if path = "db1.t2.1.sql" then
    .ok (some ⟨"db1", "t2", .SourceTypeSQL, .CompressionNone, "1"⟩)
  else
    .ok none

/-- The spec's end-to-end scenario: one database, two tables, three data
files, walked in lexicographic order. -/
def exEntries : List (String × Int) :=
  [("db1-schema-create.sql", 30), ("db1.t1-schema.sql", 40),
   ("db1.t1.1.sql", 500), ("db1.t1.2.sql", 500),
   ("db1.t2-schema.sql", 40), ("db1.t2.1.sql", 100)]

/-- The catalog produced by a full load of `exEntries`. -/
def exCatalog : List MDDatabaseMeta :=
  match setupGo "utf8mb4" exClassify (fun _ => true) (fun _ _ => true) 0 none exEntries with
  | .ok (cat, _) => cat
  | _ => []

/-- A database-schema `FileInfo` fixture. -/
def mkDbSchemaFile (db path : String) (sz : Int) : FileInfo :=
  ⟨⟨db, ""⟩,
   { Path := path, fType := .SourceTypeSchemaSchema,
     compression := .CompressionNone, SortKey := "", FileSize := sz }⟩

/-- A table-schema `FileInfo` fixture. -/
def mkTblSchemaFile (db tbl path : String) : FileInfo :=
  ⟨⟨db, tbl⟩,
   { Path := path, fType := .SourceTypeTableSchema,
     compression := .CompressionNone, SortKey := "", FileSize := 10 }⟩

/-- A view-schema `FileInfo` fixture. -/
def mkViewSchemaFile (db tbl path : String) : FileInfo :=
  ⟨⟨db, tbl⟩,
   { Path := path, fType := .SourceTypeViewSchema,
     compression := .CompressionNone, SortKey := "", FileSize := 10 }⟩

/-- A data-file `FileInfo` fixture. -/
def mkDataFile (db tbl path key : String) (sz : Int) : FileInfo :=
  ⟨⟨db, tbl⟩,
   { Path := path, fType := .SourceTypeSQL,
     compression := .CompressionNone, SortKey := key, FileSize := sz }⟩

/-- A router that moves `T` to `W` and `U` to `T`: with three duplicated
`T` database-schema files this drives `T`'s reference count to `-2`, and
the file arriving from `U` then carries name `T` with count `-1` into the
final filter. -/
def negRouteFn : RouteFn := fun db tbl =>
  if db = "T" then .ok ("W", tbl)
  else if db = "U" then .ok ("T", tbl)
  else .ok (db, tbl)

/-- A router whose rule application always fails (e.g. malformed capture). -/
def errRouteFn : RouteFn := fun _ _ => .error "bad capture group"

/-- The identity router. -/
def idRouteFn : RouteFn := fun db tbl => .ok (db, tbl)

/-- Buckets with three duplicated `T` database-schema files and one `U`
file; under `negRouteFn` the routing pass hits a negative reference count. -/
def negBuckets : Buckets :=
  ⟨[mkDbSchemaFile "T" "T-schema-create.sql" 1,
    mkDbSchemaFile "T" "T-schema-create.copy1.sql" 2,
    mkDbSchemaFile "T" "T-schema-create.copy2.sql" 3,
    mkDbSchemaFile "U" "U-schema-create.sql" 4], [], [], []⟩

/-! ## C10: missing database-schema file crashes the routing pass -/

theorem alookup_ainsert_self {κ β : Type} [DecidableEq κ] (m : List (κ × β))
    (k : κ) (v : β) : alookup k (ainsert m k v) = some v := by
  simp [alookup, ainsert]

theorem alookup_ainsert_ne {κ β : Type} [DecidableEq κ] (m : List (κ × β))
    {k k' : κ} (v : β) (h : k' ≠ k) : alookup k (ainsert m k' v) = alookup k m := by
  simp [alookup, ainsert, h]

/-- A successful `count++` does not change which keys are present. -/
theorem bumpCount_isSome_eq {m m' : CountMap} {s : String}
    (h : bumpCount m s = some m') :
    ∀ t, (alookup t m').isSome = (alookup t m).isSome := by
  intro t
  unfold bumpCount at h
  cases hm : alookup s m with
  | none => rw [hm] at h; exact absurd h (by simp)
  | some info =>
    rw [hm] at h
    injection h with h
    subst h
    by_cases ht : s = t
    · subst ht
      rw [alookup_ainsert_self, hm]
      rfl
    · rw [alookup_ainsert_ne _ _ ht]

/-- A successful bump loop does not change which keys are present. -/
theorem bumpAll_isSome_eq : ∀ {files : List FileInfo} {m m' : CountMap},
    bumpAll m files = some m' →
    ∀ t, (alookup t m').isSome = (alookup t m).isSome := by
  intro files
  induction files with
  | nil =>
    intro m m' h t
    unfold bumpAll at h
    injection h with h
    subst h
    rfl
  | cons f rest ih =>
    intro m m' h t
    unfold bumpAll at h
    cases hb : bumpCount m f.TableName.Schema with
    | none => rw [hb] at h; exact absurd h (by simp)
    | some m1 =>
      rw [hb] at h
      rw [ih h t, bumpCount_isSome_eq hb t]

theorem isSome_false_eq_none {α : Type} {x : Option α}
    (h : x.isSome = false) : x = none := by
  cases x with
  | none => rfl
  | some v => simp at h

/-- The bump loop crashes when some file's schema name is absent. -/
theorem bumpAll_none_of_missing : ∀ {files : List FileInfo} {m : CountMap}
    {f : FileInfo}, f ∈ files → alookup f.TableName.Schema m = none →
    bumpAll m files = none := by
  intro files
  induction files with
  | nil => intro m f hf; exact absurd hf (List.not_mem_nil f)
  | cons g rest ih =>
    intro m f hf hm
    unfold bumpAll
    rcases List.mem_cons.mp hf with hfg | hfr
    · subst hfg
      unfold bumpCount
      rw [hm]
    · cases hb : bumpCount m g.TableName.Schema with
      | none => rfl
      | some m1 =>
        have : alookup f.TableName.Schema m1 = none := by
          have h2 := bumpCount_isSome_eq hb f.TableName.Schema
          rw [hm] at h2
          exact isSome_false_eq_none (h2.trans rfl)
        exact ih hfr this

/-- The initial `knownDBNames` map contains exactly the database-schema
file names: a name not among them is absent. -/
theorem alookup_populate_init_none :
    ∀ (l : List FileInfo) (init : CountMap) (s : String),
    s ∉ l.map (fun i => i.TableName.Schema) → alookup s init = none →
    alookup s (l.foldl
      (fun m info => ainsert m info.TableName.Schema
        ({ fileMeta := info.FileMeta, count := 1 } : DbInfo)) init) = none := by
  intro l
  induction l with
  | nil => intro init s _ h2; exact h2
  | cons f rest ih =>
    intro init s h1 h2
    simp only [List.map_cons, List.mem_cons, not_or] at h1
    exact ih _ s (by simpa using h1.2)
      (by rw [alookup_ainsert_ne _ _ (fun h => h1.1 h.symm)]; exact h2)

/-- Unfolding equation for `populateKnownDBNames` (zeta-reduced). -/
theorem populateKnownDBNames_eq (bkts : Buckets) :
    populateKnownDBNames bkts =
      (match bumpAll
          (bkts.dbSchemas.foldl
            (fun m info => ainsert m info.TableName.Schema
              ({ fileMeta := info.FileMeta, count := 1 } : DbInfo)) [])
          bkts.tableSchemas with
      | none => none
      | some m1 =>
        match bumpAll m1 bkts.viewSchemas with
        | none => none
        | some m2 => bumpAll m2 bkts.tableDatas) := rfl

/-- The population phase of the routing pass crashes whenever some
table-schema, view-schema or data file references a database with no
database-schema file. -/
theorem populate_none_of_missing (bkts : Buckets) (f : FileInfo)
    (hf : f ∈ bkts.tableSchemas ++ bkts.viewSchemas ++ bkts.tableDatas)
    (hs : f.TableName.Schema ∉ bkts.dbSchemas.map (fun i => i.TableName.Schema)) :
    populateKnownDBNames bkts = none := by
  rw [populateKnownDBNames_eq]
  have hm0 : alookup f.TableName.Schema
      (bkts.dbSchemas.foldl
        (fun m info => ainsert m info.TableName.Schema
          ({ fileMeta := info.FileMeta, count := 1 } : DbInfo)) []) = none :=
    alookup_populate_init_none bkts.dbSchemas [] f.TableName.Schema hs rfl
  rcases List.mem_append.mp hf with hf' | hfd
  · rcases List.mem_append.mp hf' with hft | hfv
    · rw [bumpAll_none_of_missing hft hm0]
    · cases h1 : bumpAll _ bkts.tableSchemas with
      | none => rfl
      | some m1 =>
        have : alookup f.TableName.Schema m1 = none := by
          have h2 := bumpAll_isSome_eq h1 f.TableName.Schema
          rw [hm0] at h2
          exact isSome_false_eq_none (h2.trans rfl)
        dsimp only
        rw [bumpAll_none_of_missing hfv this]
  · cases h1 : bumpAll _ bkts.tableSchemas with
    | none => rfl
    | some m1 =>
      have hm1 : alookup f.TableName.Schema m1 = none := by
        have h2 := bumpAll_isSome_eq h1 f.TableName.Schema
        rw [hm0] at h2
        exact isSome_false_eq_none (h2.trans rfl)
      dsimp only
      cases h2 : bumpAll m1 bkts.viewSchemas with
      | none => rfl
      | some m2 =>
        have hm2 : alookup f.TableName.Schema m2 = none := by
          have h3 := bumpAll_isSome_eq h2 f.TableName.Schema
          rw [hm1] at h3
          exact isSome_false_eq_none (h3.trans rfl)
        dsimp only
        exact bumpAll_none_of_missing hfd hm2

/-- C10: when a router is configured and some table-schema, view-schema or
data file belongs to a database that has no database-schema file, the
routing pass dereferences a missing (`nil`) map entry and crashes instead
of returning an error. -/
theorem c10_route_crash (rt : RouteFn) (bkts : Buckets) (f : FileInfo)
    (hf : f ∈ bkts.tableSchemas ++ bkts.viewSchemas ++ bkts.tableDatas)
    (hs : f.TableName.Schema ∉ bkts.dbSchemas.map (fun i => i.TableName.Schema)) :
    route (some rt) bkts = .crash := by
  unfold route
  rw [populate_none_of_missing bkts f hf hs]

/-- C10 witness: a single table-schema file with no database-schema file
crashes the routing pass under the identity router. -/
theorem c10_witness :
    route (some idRouteFn)
      ⟨[], [mkTblSchemaFile "nodb" "t" "nodb.t-schema.sql"], [], []⟩ = .crash :=
  c10_route_crash idRouteFn
    ⟨[], [mkTblSchemaFile "nodb" "t" "nodb.t-schema.sql"], [], []⟩
    (mkTblSchemaFile "nodb" "t" "nodb.t-schema.sql") (by simp) (by simp)

/-! ## C2: zero-count schemas are removed; negative counts error out -/

/-- When no reference count is negative, the final filter loop of `route`
keeps exactly the database-schema files with a positive count. -/
theorem removeRoutedSchemas_ok (m : CountMap) : ∀ (infos : List FileInfo),
    (∀ f ∈ infos, ∃ i, alookup f.TableName.Schema m = some i ∧ 0 ≤ i.count) →
    removeRoutedSchemas m infos = .ok (infos.filter fun f =>
      match alookup f.TableName.Schema m with
      | some i => decide (0 < i.count)
      | none => false) := by
  intro infos
  induction infos with
  | nil => intro _; rfl
  | cons f rest ih =>
    intro h
    obtain ⟨i, hi, hc⟩ := h f (List.mem_cons_self f rest)
    unfold removeRoutedSchemas
    rw [hi]
    dsimp only
    have hrest := ih (fun g hg => h g (List.mem_cons_of_mem f hg))
    by_cases hpos : i.count > 0
    · rw [if_pos hpos, hrest]
      simp [List.filter_cons, hi, hpos]
    · have hneg : ¬ i.count < 0 := not_lt.mpr hc
      rw [if_neg hpos, if_neg hneg, hrest]
      simp [List.filter_cons, hi, hpos]

/-- If every name is present in the count map but some database-schema
file's count is strictly negative, the final filter loop of `route`
returns the `ErrTableRoute`-kind invariant error. -/
theorem removeRoutedSchemas_neg (m : CountMap) : ∀ (infos : List FileInfo),
    (∀ f ∈ infos, (alookup f.TableName.Schema m).isSome) →
    (∃ f ∈ infos, ∃ i, alookup f.TableName.Schema m = some i ∧ i.count < 0) →
    ∃ e, removeRoutedSchemas m infos = .failed e ∧ e.kind = .tableRoute := by
  intro infos
  induction infos with
  | nil =>
    intro _ hex
    obtain ⟨f, hf, _⟩ := hex
    exact absurd hf (List.not_mem_nil f)
  | cons f rest ih =>
    intro hall hex
    obtain ⟨i, hi⟩ := Option.isSome_iff_exists.mp (hall f (List.mem_cons_self f rest))
    unfold removeRoutedSchemas
    rw [hi]
    dsimp only
    by_cases hneg : i.count < 0
    · have hpos : ¬ i.count > 0 := not_lt.mpr (le_of_lt hneg)
      rw [if_neg hpos, if_pos hneg]
      exact ⟨_, rfl, rfl⟩
    · have hex' : ∃ g ∈ rest, ∃ j,
          alookup g.TableName.Schema m = some j ∧ j.count < 0 := by
        obtain ⟨g, hg, j, hj, hjneg⟩ := hex
        rcases List.mem_cons.mp hg with hfg | hgr
        · subst hfg
          rw [hi] at hj
          injection hj with hj
          subst hj
          exact absurd hjneg hneg
        · exact ⟨g, hgr, j, hj, hjneg⟩
      obtain ⟨e, he, hk⟩ :=
        ih (fun g hg => hall g (List.mem_cons_of_mem f hg)) hex'
      by_cases hpos : i.count > 0
      · rw [if_pos hpos, he]
        exact ⟨e, rfl, hk⟩
      · rw [if_neg hpos, if_neg hneg]
        exact ⟨e, he, hk⟩

/-- C2 (amended): at the end of the name-routing pass, when no reference
count is negative every database-schema FileInfo whose count has dropped
to zero (or below) is removed from the bucket — exactly the positive-count
entries are kept; and a strictly negative count on a remaining entry
surfaces as an `ErrTableRoute`-kind error, never silently ignored.  (As
the counterexample shows, this error kind is shared with wrapped
routing-rule failures, so it is not distinguishable from them by kind.) -/
theorem c2_remove_and_invariant (m : CountMap) (infos : List FileInfo) :
    ((∀ f ∈ infos, ∃ i, alookup f.TableName.Schema m = some i ∧ 0 ≤ i.count) →
      removeRoutedSchemas m infos = .ok (infos.filter fun f =>
        match alookup f.TableName.Schema m with
        | some i => decide (0 < i.count)
        | none => false)) ∧
    ((∀ f ∈ infos, (alookup f.TableName.Schema m).isSome) →
      (∃ f ∈ infos, ∃ i, alookup f.TableName.Schema m = some i ∧ i.count < 0) →
      ∃ e, removeRoutedSchemas m infos = .failed e ∧ e.kind = .tableRoute) :=
  ⟨removeRoutedSchemas_ok m infos, removeRoutedSchemas_neg m infos⟩

/-- A two-entry count map and bucket for the C2 witness. -/
def c2map : CountMap :=
  [("keep", { fileMeta := emptySourceFileMeta, count := 2 }),
   ("drop", { fileMeta := emptySourceFileMeta, count := 0 })]

/-- A count map with a negative entry for the C2 witness. -/
def c2mapNeg : CountMap :=
  [("bad", { fileMeta := emptySourceFileMeta, count := -1 })]

/-- C2 witness: at concrete inputs, the zero-count entry is removed and
the positive-count entry kept; a negative count yields the
`ErrTableRoute`-kind error. -/
theorem c2_witness :
    removeRoutedSchemas c2map
      [mkDbSchemaFile "keep" "keep-schema-create.sql" 1,
       mkDbSchemaFile "drop" "drop-schema-create.sql" 1]
      = .ok [mkDbSchemaFile "keep" "keep-schema-create.sql" 1] ∧
    ∃ e, removeRoutedSchemas c2mapNeg
      [mkDbSchemaFile "bad" "bad-schema-create.sql" 1] = .failed e ∧
      e.kind = .tableRoute := by
  constructor
  · have h := (c2_remove_and_invariant c2map
      [mkDbSchemaFile "keep" "keep-schema-create.sql" 1,
       mkDbSchemaFile "drop" "drop-schema-create.sql" 1]).1 (by decide)
    rw [h]
    decide
  · exact (c2_remove_and_invariant c2mapNeg
      [mkDbSchemaFile "bad" "bad-schema-create.sql" 1]).2 (by decide)
      ⟨mkDbSchemaFile "bad" "bad-schema-create.sql" 1, by decide,
       { fileMeta := emptySourceFileMeta, count := -1 }, by decide, by decide⟩

/-- C2 counterexample: the claim asserts the negative-count invariant
error is distinguishable by error kind from user-input errors "such as
ordinary routing-rule failures".  It is not: through `setup`'s wrapping
both a genuine negative reference count (first conjunct, reachable with
three duplicated `T` schema files routed away plus a `U` file routed onto
`T`) and a plain routing-rule failure (second conjunct) surface with the
same `ErrTableRoute` kind, differing only in message. -/
theorem c2_counterexample :
    setupFromBuckets "utf8mb4" (some negRouteFn) negBuckets none
      = .failed ⟨.tableRoute, "something wrong happened when route T."⟩ ∧
    setupFromBuckets "utf8mb4" (some errRouteFn) negBuckets none
      = .failed ⟨.tableRoute, "bad capture group"⟩ :=
  ⟨by decide, by decide⟩

/-! ## C3: the scan ceiling counts every walked entry -/

/-- Total number of files accumulated in the four buckets. -/
def bucketsSize (b : Buckets) : Nat :=
  b.dbSchemas.length + b.tableSchemas.length + b.viewSchemas.length
    + b.tableDatas.length

/-- The spec's notion of "classified entries": walked entries that the
classifier accepts and the filter keeps.  (Stated only to express the
claim; the code's ceiling does not use it.) -/
def specClassifiedCount (classify : String → Except String (Option RouteResult))
    (skip : FilterTable → Bool) (entries : List (String × Int)) : Nat :=
  (entries.filter fun e =>
    match classify e.1 with
    | .ok (some r) => !(skip ⟨r.Schema, r.Name⟩)
    | _ => false).length

/-- With a positive ceiling and an error-free classifier, the walk reports
"too many source files" exactly when the number of WALKED entries exceeds
the ceiling — regardless of how many were classified. -/
theorem listFilesGo_abort_iff (classify : String → Except String (Option RouteResult))
    (skip : FilterTable → Bool) (K : Int) (hK : 0 < K) :
    ∀ (entries : List (String × Int)) (scanned : Int) (bkts : Buckets),
    scanned ≤ K →
    (∀ e ∈ entries, ∀ s, classify e.1 ≠ .error s) →
    ((listFilesGo classify skip K entries scanned bkts).2
        = some errTooManySourceFiles ↔ K < scanned + entries.length) := by
  intro entries
  induction entries with
  | nil =>
    intro scanned bkts hs _
    simp only [listFilesGo, List.length_nil]
    constructor
    · intro h; exact absurd h (by simp)
    · intro h; omega
  | cons e rest ih =>
    intro scanned bkts hs hcl
    obtain ⟨p, sz⟩ := e
    by_cases habort : K < scanned + 1
    · have : scanned = K := by omega
      subst this
      simp only [listFilesGo, List.length_cons]
      rw [if_pos ⟨hK, by omega⟩]
      constructor
      · intro _; omega
      · intro _; rfl
    · have hrec : ∀ (b : Buckets),
          ((listFilesGo classify skip K rest (scanned + 1) b).2
            = some errTooManySourceFiles ↔ K < scanned + 1 + rest.length) :=
        fun b => ih (scanned + 1) b (by omega)
          (fun g hg s => hcl g (List.mem_cons_of_mem _ hg) s)
      simp only [listFilesGo, List.length_cons, Nat.cast_add, Nat.cast_one]
      rw [if_neg (fun h => habort h.2)]
      cases hc : classify p with
      | error s => exact absurd hc (hcl (p, sz) (List.mem_cons_self _ _) s)
      | ok o =>
        cases o with
        | none =>
          dsimp only
          rw [hrec bkts]
          omega
        | some res =>
          dsimp only
          by_cases hskip : skip ⟨res.Schema, res.Name⟩
          · rw [if_pos hskip, hrec bkts]
            omega
          · rw [if_neg hskip]
            rw [hrec _]
            omega

/-- When every walked entry is classifiable (accepted, kept, bucketed),
an exceeded ceiling leaves exactly `K - scanned` classified files in the
buckets beyond what was already there. -/
theorem listFilesGo_partial_size (classify : String → Except String (Option RouteResult))
    (skip : FilterTable → Bool) (K : Int) (hK : 0 < K) :
    ∀ (entries : List (String × Int)) (scanned : Int) (bkts : Buckets),
    scanned ≤ K → (K - scanned) < entries.length →
    (∀ e ∈ entries, ∃ r, classify e.1 = .ok (some r) ∧
      skip ⟨r.Schema, r.Name⟩ = false ∧ r.fType ≠ .SourceTypeIgnore) →
    (listFilesGo classify skip K entries scanned bkts).2
        = some errTooManySourceFiles ∧
    bucketsSize (listFilesGo classify skip K entries scanned bkts).1
        = bucketsSize bkts + (K - scanned).toNat := by
  intro entries
  induction entries with
  | nil =>
    intro scanned bkts hs hlen _
    simp only [List.length_nil] at hlen
    omega
  | cons e rest ih =>
    intro scanned bkts hs hlen hcl
    obtain ⟨p, sz⟩ := e
    by_cases habort : K < scanned + 1
    · have hsK : scanned = K := by omega
      subst hsK
      simp only [listFilesGo]
      rw [if_pos ⟨hK, by omega⟩]
      constructor
      · rfl
      · simp
    · obtain ⟨r, hr, hskip, hft⟩ := hcl (p, sz) (List.mem_cons_self _ _)
      have hlen' : K - (scanned + 1) < rest.length := by
        simp only [List.length_cons] at hlen
        omega
      simp only [listFilesGo]
      rw [if_neg (fun h => habort h.2), hr]
      dsimp only
      rw [if_neg (by rw [hskip]; exact Bool.false_ne_true)]
      set info : FileInfo :=
        { TableName := { Schema := r.Schema, Name := r.Name },
          FileMeta := { Path := p, fType := r.fType,
                        compression := r.compression, SortKey := r.Key,
                        FileSize := sz } }
      have hcl' : ∀ g ∈ rest, ∃ r', classify g.1 = .ok (some r') ∧
          skip ⟨r'.Schema, r'.Name⟩ = false ∧ r'.fType ≠ .SourceTypeIgnore :=
        fun g hg => hcl g (List.mem_cons_of_mem _ hg)
      have hone : ∀ (b1 : Buckets), bucketsSize b1 = bucketsSize bkts + 1 →
          (listFilesGo classify skip K rest (scanned + 1) b1).2
              = some errTooManySourceFiles ∧
          bucketsSize (listFilesGo classify skip K rest (scanned + 1) b1).1
              = bucketsSize bkts + (K - scanned).toNat := by
        intro b1 hb1
        obtain ⟨h1, h2⟩ := ih (scanned + 1) b1 (by omega) hlen' hcl'
        refine ⟨h1, ?_⟩
        rw [h2, hb1]
        omega
      cases hft' : r.fType with
      | SourceTypeIgnore => exact absurd hft' hft
      | SourceTypeSchemaSchema =>
        exact hone _ (by simp only [bucketsSize, List.length_append,
          List.length_singleton]; omega)
      | SourceTypeTableSchema =>
        exact hone _ (by simp only [bucketsSize, List.length_append,
          List.length_singleton]; omega)
      | SourceTypeViewSchema =>
        exact hone _ (by simp only [bucketsSize, List.length_append,
          List.length_singleton]; omega)
      | SourceTypeSQL =>
        exact hone _ (by simp only [bucketsSize, List.length_append,
          List.length_singleton]; omega)
      | SourceTypeCSV =>
        exact hone _ (by simp only [bucketsSize, List.length_append,
          List.length_singleton]; omega)
      | SourceTypeParquet =>
        exact hone _ (by simp only [bucketsSize, List.length_append,
          List.length_singleton]; omega)

/-- C3 (amended): with a positive ceiling K, EVERY walked entry counts
toward the ceiling (also entries the classifier declines or the filter
rejects): with an error-free classifier the walk aborts with the
too-many-source-files error exactly when the number of walked entries
exceeds K; and when all N > K walked entries are classifiable, the
returned partial buckets hold exactly K classified files — more than zero
and fewer than N. -/
theorem c3_ceiling_counts_walked (classify : String → Except String (Option RouteResult))
    (skip : FilterTable → Bool) (K : Int) (entries : List (String × Int))
    (hK : 0 < K) :
    ((∀ e ∈ entries, ∀ s, classify e.1 ≠ .error s) →
      ((listFiles classify skip K entries).2 = some errTooManySourceFiles ↔
        K < entries.length)) ∧
    (K < entries.length →
      (∀ e ∈ entries, ∃ r, classify e.1 = .ok (some r) ∧
        skip ⟨r.Schema, r.Name⟩ = false ∧ r.fType ≠ .SourceTypeIgnore) →
      (listFiles classify skip K entries).2 = some errTooManySourceFiles ∧
      bucketsSize (listFiles classify skip K entries).1 = K.toNat ∧
      0 < K.toNat ∧ K.toNat < entries.length) := by
  constructor
  · intro hcl
    have h := listFilesGo_abort_iff classify skip K hK entries 0
      { dbSchemas := [], tableSchemas := [], viewSchemas := [], tableDatas := [] }
      (le_of_lt hK) hcl
    simpa [listFiles] using h
  · intro hlen hcl
    have h := listFilesGo_partial_size classify skip K hK entries 0
      { dbSchemas := [], tableSchemas := [], viewSchemas := [], tableDatas := [] }
      (le_of_lt hK) (by omega) hcl
    obtain ⟨h1, h2⟩ := h
    refine ⟨h1, ?_, by omega, by omega⟩
    show bucketsSize (listFilesGo classify skip K entries 0
      { dbSchemas := [], tableSchemas := [], viewSchemas := [],
        tableDatas := [] }).1 = K.toNat
    rw [h2]
    simp only [bucketsSize, List.length_nil]
    omega

/-- C3 counterexample: the claim says ONLY classified entries count toward
the ceiling and the walk aborts exactly when the classified count exceeds
K.  With K = 1 and two walked entries of which only one is classified
(classified count 1, not exceeding K), the walk nevertheless aborts with
the too-many-source-files error: the counter counts every walked entry. -/
theorem c3_counterexample :
    specClassifiedCount exClassify (fun _ => false)
      [("junk", 0), ("db1.t1.1.sql", 5)] = 1 ∧
    (listFiles exClassify (fun _ => false) 1
      [("junk", 0), ("db1.t1.1.sql", 5)]).2 = some errTooManySourceFiles :=
  ⟨by decide, by decide⟩

/-- C3 witness: with ceiling 1 and six classifiable entries, the load
aborts and the partial buckets hold exactly one classified file. -/
theorem c3_witness :
    (listFiles exClassify (fun _ => false) 1 exEntries).2
        = some errTooManySourceFiles ∧
    bucketsSize (listFiles exClassify (fun _ => false) 1 exEntries).1 = (1 : Int).toNat ∧
    0 < (1 : Int).toNat ∧ (1 : Int).toNat < exEntries.length := by
  have h := (c3_ceiling_counts_walked exClassify (fun _ => false) 1 exEntries
    (by decide)).2 (by decide)
  exact h (by simp [exEntries, exClassify])

/-! ## C4: only the ceiling error yields a (sorted) partial catalog -/

/-- Database-schema assembly errors are always `ErrInvalidSchemaFile`. -/
theorem setupDbSchemas_error_kind (charSet : String) (hr : Bool) :
    ∀ (l : List FileInfo) (st : SetupState) (e : LoadError),
    setupDbSchemas charSet hr st l = .error e → e.kind = .invalidSchemaFile := by
  intro l
  induction l with
  | nil => intro st e h; exact absurd h (by simp [setupDbSchemas])
  | cons f rest ih =>
    intro st e h
    unfold setupDbSchemas at h
    split at h
    split at h
    · injection h with h
      subst h
      rfl
    · exact ih _ e h

/-- Table-schema assembly errors are always `ErrInvalidSchemaFile`. -/
theorem setupTableSchemas_error_kind (charSet : String) (hr : Bool) :
    ∀ (l : List FileInfo) (st : SetupState) (e : LoadError),
    setupTableSchemas charSet hr st l = .error e → e.kind = .invalidSchemaFile := by
  intro l
  induction l with
  | nil => intro st e h; exact absurd h (by simp [setupTableSchemas])
  | cons f rest ih =>
    intro st e h
    unfold setupTableSchemas at h
    split at h
    split at h
    · injection h with h
      subst h
      rfl
    · exact ih _ e h

/-- View-schema assembly errors are always `ErrInvalidSchemaFile`. -/
theorem setupViewSchemas_error_kind (charSet : String) :
    ∀ (l : List FileInfo) (st : SetupState) (e : LoadError),
    setupViewSchemas charSet st l = .error e → e.kind = .invalidSchemaFile := by
  intro l
  induction l with
  | nil => intro st e h; exact absurd h (by simp [setupViewSchemas])
  | cons f rest ih =>
    intro st e h
    unfold setupViewSchemas at h
    split at h
    split at h
    · injection h with h
      subst h
      rfl
    · exact ih _ e h

/-- A `setupFromBuckets` failure is a table-route or invalid-schema error. -/
theorem setupFromBuckets_failed_kind (charSet : String) (router? : Option RouteFn)
    (bkts : Buckets) (gerr : Option LoadError) (e : LoadError)
    (h : setupFromBuckets charSet router? bkts gerr = .failed e) :
    e.kind = .tableRoute ∨ e.kind = .invalidSchemaFile := by
  unfold setupFromBuckets at h
  split at h
  · exact absurd h (by simp)
  · injection h with h
    subst h
    left
    rfl
  · split at h
    · injection h with h
      subst h
      right
      exact setupDbSchemas_error_kind _ _ _ _ _ (by assumption)
    · split at h
      · injection h with h
        subst h
        right
        exact setupTableSchemas_error_kind _ _ _ _ _ (by assumption)
      · split at h
        · injection h with h
          subst h
          right
          exact setupViewSchemas_error_kind _ _ _ _ (by assumption)
        · cases h

/-- A successful `setupFromBuckets` returns the pending `gerr` and a
catalog that went through the final sorting pass. -/
theorem setupFromBuckets_ok_shape (charSet : String) (router? : Option RouteFn)
    (bkts : Buckets) (gerr : Option LoadError) (cat : List MDDatabaseMeta)
    (g : Option LoadError)
    (h : setupFromBuckets charSet router? bkts gerr = .ok (cat, g)) :
    g = gerr ∧ ∃ pre, cat = sortDBs pre := by
  unfold setupFromBuckets at h
  split at h
  · exact absurd h (by simp)
  · exact absurd h (by simp)
  · split at h
    · exact absurd h (by simp)
    · split at h
      · exact absurd h (by simp)
      · split at h
        · exact absurd h (by simp)
        · injection h with h
          injection h with h1 h2
          exact ⟨h2.symm, _, h1.symm⟩

/-- A `setupGo` failure is a storage, table-route or invalid-schema error:
never the ceiling error. -/
theorem setupGo_failed_kind (charSet : String)
    (classify : String → Except String (Option RouteResult))
    (ms : String → Bool) (mt : String → String → Bool) (maxScan : Int)
    (router? : Option RouteFn) (entries : List (String × Int)) (e : LoadError)
    (h : setupGo charSet classify ms mt maxScan router? entries = .failed e) :
    e.kind ≠ .tooManySourceFiles := by
  unfold setupGo at h
  split at h
  next bkts e0 heq =>
    split at h
    · rcases setupFromBuckets_failed_kind _ _ _ _ _ h with hk | hk <;>
        (rw [hk]; intro hcontra; exact absurd hcontra (by simp))
    · injection h with h
      subst h
      intro hcontra
      exact absurd hcontra (by simp [wrapStorageUnknown])
  next bkts heq =>
    rcases setupFromBuckets_failed_kind _ _ _ _ _ h with hk | hk <;>
      (rw [hk]; intro hcontra; exact absurd hcontra (by simp))

/-- A `setupGo` success carrying an error carries the ceiling error, and
its catalog went through the final sorting pass. -/
theorem setupGo_ok_shape (charSet : String)
    (classify : String → Except String (Option RouteResult))
    (ms : String → Bool) (mt : String → String → Bool) (maxScan : Int)
    (router? : Option RouteFn) (entries : List (String × Int))
    (cat : List MDDatabaseMeta) (g : Option LoadError)
    (h : setupGo charSet classify ms mt maxScan router? entries = .ok (cat, g)) :
    (∀ e, g = some e → e.kind = .tooManySourceFiles) ∧ ∃ pre, cat = sortDBs pre := by
  unfold setupGo at h
  split at h
  next bkts e0 heq =>
    split at h
    next hkind =>
      obtain ⟨hg, hpre⟩ := setupFromBuckets_ok_shape _ _ _ _ _ _ h
      subst hg
      refine ⟨?_, hpre⟩
      intro e he
      injection he with he
      subst he
      exact hkind
    · exact absurd h (by simp)
  next bkts heq =>
    obtain ⟨hg, hpre⟩ := setupFromBuckets_ok_shape _ _ _ _ _ _ h
    subst hg
    refine ⟨?_, hpre⟩
    intro e he
    cases he

/-- C4: when the scan ceiling is exceeded the load returns BOTH the
partially built catalog (which still went through routing, assembly and
the final sorting pass) and the too-many-source-files error; every other
fatal error unwinds the load and yields no catalog at all (the `failure`
outcome carries no catalog, and it never carries the ceiling kind). -/
theorem c4_propagation (charSet : String)
    (classify : String → Except String (Option RouteResult))
    (ms : String → Bool) (mt : String → String → Bool) (maxScan : Int)
    (router? : Option RouteFn) (entries : List (String × Int)) :
    (∀ e, newMyDumpLoaderWithStore charSet classify ms mt maxScan router? entries
        = .failure e → e.kind ≠ .tooManySourceFiles) ∧
    (∀ cat e, newMyDumpLoaderWithStore charSet classify ms mt maxScan router? entries
        = .degraded cat e →
      e.kind = .tooManySourceFiles ∧ ∃ pre, cat = sortDBs pre) ∧
    (∀ cat g, setupGo charSet classify ms mt maxScan router? entries = .ok (cat, some g) →
      newMyDumpLoaderWithStore charSet classify ms mt maxScan router? entries
        = .degraded cat g) := by
  refine ⟨?_, ?_, ?_⟩
  · intro e h
    unfold newMyDumpLoaderWithStore at h
    split at h
    · cases h
    · next e0 heq =>
      injection h with h
      subst h
      exact setupGo_failed_kind _ _ _ _ _ _ _ _ heq
    · cases h
    · cases h
  · intro cat e h
    unfold newMyDumpLoaderWithStore at h
    split at h
    · cases h
    · cases h
    · next dbs g heq =>
      injection h with h1 h2
      subst h1 h2
      obtain ⟨hg, hpre⟩ := setupGo_ok_shape _ _ _ _ _ _ _ _ _ heq
      exact ⟨hg _ rfl, hpre⟩
    · cases h
  · intro cat g h
    unfold newMyDumpLoaderWithStore
    rw [h]

/-- The partially built catalog obtained with ceiling 2 on the
end-to-end scenario. -/
def exPartialCatalog : List MDDatabaseMeta :=
  match setupGo "utf8mb4" exClassify (fun _ => true) (fun _ _ => true) 2 none exEntries with
  | .ok (cat, _) => cat
  | _ => []

/-- C4 witness: a concrete exceeded-ceiling load yields the degraded
outcome with the ceiling error and a sorted partial catalog. -/
theorem c4_witness :
    errTooManySourceFiles.kind = .tooManySourceFiles ∧
    ∃ pre, exPartialCatalog = sortDBs pre :=
  (c4_propagation "utf8mb4" exClassify (fun _ => true) (fun _ _ => true) 2
    none exEntries).2.1 exPartialCatalog errTooManySourceFiles (by rfl)

/-! ## C5: duplicate schema files — strict without router, merged with -/

/-- `insertDB` leaves the table index map untouched. -/
theorem insertDB_tableIndexMap (charSet : String) (st : SetupState) (f : FileInfo) :
    (insertDB charSet st f).1.tableIndexMap = st.tableIndexMap := by
  unfold insertDB
  cases alookup f.TableName.Schema st.dbIndexMap <;> rfl

/-- `insertDB` reports an existing database iff its name is indexed. -/
theorem insertDB_exists_iff (charSet : String) (st : SetupState) (f : FileInfo) :
    (insertDB charSet st f).2.2 = true ↔
      (alookup f.TableName.Schema st.dbIndexMap).isSome := by
  unfold insertDB
  cases alookup f.TableName.Schema st.dbIndexMap <;> simp

/-- When the database already exists, `insertDB` leaves the state as-is. -/
theorem insertDB_some_state (charSet : String) (st : SetupState) (f : FileInfo)
    (i : Nat) (h : alookup f.TableName.Schema st.dbIndexMap = some i) :
    (insertDB charSet st f).1 = st := by
  unfold insertDB
  rw [h]

/-- When the database is new, `insertDB` appends its name to the catalog. -/
theorem insertDB_none_names (charSet : String) (st : SetupState) (f : FileInfo)
    (h : alookup f.TableName.Schema st.dbIndexMap = none) :
    (insertDB charSet st f).1.dbs.map MDDatabaseMeta.Name
      = st.dbs.map MDDatabaseMeta.Name ++ [f.TableName.Schema] := by
  unfold insertDB
  rw [h]
  simp

/-- When the database is new, `insertDB` indexes exactly its name extra. -/
theorem insertDB_none_keys (charSet : String) (st : SetupState) (f : FileInfo)
    (h : alookup f.TableName.Schema st.dbIndexMap = none) (s : String) :
    (alookup s (insertDB charSet st f).1.dbIndexMap).isSome ↔
      (s = f.TableName.Schema ∨ (alookup s st.dbIndexMap).isSome) := by
  unfold insertDB
  rw [h]
  dsimp only
  by_cases hs : s = f.TableName.Schema
  · subst hs
    rw [alookup_ainsert_self]
    simp
  · rw [alookup_ainsert_ne _ _ (fun hc => hs hc.symm)]
    simp [hs]

/-- The database-name index is exactly the set of catalog database names. -/
def DbKeysInv (st : SetupState) : Prop :=
  ∀ s, (alookup s st.dbIndexMap).isSome ↔ s ∈ st.dbs.map MDDatabaseMeta.Name

/-- Without a router, the database-schema pass fails with an
invalid-schema-file error whenever some file's database name is already
catalogued or occurs twice in the bucket. -/
theorem setupDbSchemas_norouter_dup (charSet : String) :
    ∀ (l : List FileInfo) (st : SetupState),
    ((∃ f ∈ l, (alookup f.TableName.Schema st.dbIndexMap).isSome) ∨
      ¬ (l.map (fun f => f.TableName.Schema)).Nodup) →
    ∃ e, setupDbSchemas charSet false st l = .error e ∧
      e.kind = .invalidSchemaFile := by
  intro l
  induction l with
  | nil =>
    intro st h
    rcases h with ⟨f, hf, _⟩ | hnd
    · exact absurd hf (List.not_mem_nil f)
    · simp at hnd
  | cons f rest ih =>
    intro st h
    unfold setupDbSchemas
    rcases hins : insertDB charSet st f with ⟨st1, idx, dbExists⟩
    dsimp only
    cases hlk : alookup f.TableName.Schema st.dbIndexMap with
    | some i =>
      have hex : dbExists = true := by
        have := (insertDB_exists_iff charSet st f).mpr (by rw [hlk]; rfl)
        rw [hins] at this
        exact this
      subst hex
      rw [if_pos ⟨rfl, rfl⟩]
      exact ⟨_, rfl, rfl⟩
    | none =>
      have hex : dbExists = false := by
        have hiff := insertDB_exists_iff charSet st f
        rw [hins, hlk] at hiff
        simp at hiff
        exact hiff
      subst hex
      rw [if_neg (fun hc => by exact absurd hc.1 (by simp))]
      have hst1 : st1 = (insertDB charSet st f).1 := by rw [hins]
      have hkeys : ∀ s, (alookup s st1.dbIndexMap).isSome ↔
          (s = f.TableName.Schema ∨ (alookup s st.dbIndexMap).isSome) := by
        intro s
        rw [hst1]
        exact insertDB_none_keys charSet st f hlk s
      apply ih st1
      rcases h with ⟨g, hg, hgs⟩ | hnd
      · rcases List.mem_cons.mp hg with hgf | hgr
        · subst hgf
          rw [hlk] at hgs
          exact absurd hgs (by simp)
        · exact Or.inl ⟨g, hgr, (hkeys g.TableName.Schema).mpr (Or.inr hgs)⟩
      · rw [List.map_cons, List.nodup_cons] at hnd
        push_neg at hnd
        by_cases hmem : f.TableName.Schema ∈ rest.map (fun f => f.TableName.Schema)
        · obtain ⟨g, hgr, hgs⟩ := List.mem_map.mp hmem
          exact Or.inl ⟨g, hgr, (hkeys g.TableName.Schema).mpr (Or.inl hgs)⟩
        · right
          intro hc
          exact hnd hmem hc

/-- `insertTable` reports an existing table iff its key is indexed. -/
theorem insertTable_exists_iff (charSet : String) (st : SetupState) (f : FileInfo) :
    (insertTable charSet st f).2.2.2.2 = true ↔
      (alookup f.TableName st.tableIndexMap).isSome := by
  unfold insertTable
  rcases hins : insertDB charSet st (dummyDBFileInfo f.TableName.Schema)
    with ⟨st1, idx, dbExists⟩
  dsimp only
  have hmap : st1.tableIndexMap = st.tableIndexMap := by
    have h := insertDB_tableIndexMap charSet st (dummyDBFileInfo f.TableName.Schema)
    rw [hins] at h
    exact h
  rw [hmap]
  cases alookup f.TableName st.tableIndexMap <;> simp

/-- The key set after `insertTable`: the file's own key plus the old keys. -/
theorem insertTable_keys (charSet : String) (st : SetupState) (f : FileInfo)
    (s : FilterTable) :
    (alookup s (insertTable charSet st f).1.tableIndexMap).isSome ↔
      (s = f.TableName ∨ (alookup s st.tableIndexMap).isSome) := by
  unfold insertTable
  rcases hins : insertDB charSet st (dummyDBFileInfo f.TableName.Schema)
    with ⟨st1, idx, dbExists⟩
  dsimp only
  have hmap : st1.tableIndexMap = st.tableIndexMap := by
    have h := insertDB_tableIndexMap charSet st (dummyDBFileInfo f.TableName.Schema)
    rw [hins] at h
    exact h
  cases hlk : alookup f.TableName st1.tableIndexMap with
  | some i =>
    dsimp only
    rw [hmap]
    constructor
    · exact fun h => Or.inr h
    · rintro (hs | hs)
      · subst hs
        rw [← hmap, hlk]
        rfl
      · exact hs
  | none =>
    dsimp only
    by_cases hs : s = f.TableName
    · subst hs
      rw [alookup_ainsert_self]
      simp
    · rw [alookup_ainsert_ne _ _ (fun hc => hs hc.symm), hmap]
      simp [hs]

/-- Without a router, the table-schema pass fails with an
invalid-schema-file error whenever some file's (schema, table) key is
already indexed or occurs twice in the bucket. -/
theorem setupTableSchemas_norouter_dup (charSet : String) :
    ∀ (l : List FileInfo) (st : SetupState),
    ((∃ f ∈ l, (alookup f.TableName st.tableIndexMap).isSome) ∨
      ¬ (l.map (fun f => f.TableName)).Nodup) →
    ∃ e, setupTableSchemas charSet false st l = .error e ∧
      e.kind = .invalidSchemaFile := by
  intro l
  induction l with
  | nil =>
    intro st h
    rcases h with ⟨f, hf, _⟩ | hnd
    · exact absurd hf (List.not_mem_nil f)
    · simp at hnd
  | cons f rest ih =>
    intro st h
    unfold setupTableSchemas
    rcases hins : insertTable charSet st f with ⟨st1, d, t, de, tableExists⟩
    dsimp only
    cases hlk : alookup f.TableName st.tableIndexMap with
    | some i =>
      have hex : tableExists = true := by
        have := (insertTable_exists_iff charSet st f).mpr (by rw [hlk]; rfl)
        rw [hins] at this
        exact this
      subst hex
      rw [if_pos ⟨rfl, rfl⟩]
      exact ⟨_, rfl, rfl⟩
    | none =>
      have hex : tableExists = false := by
        have hiff := insertTable_exists_iff charSet st f
        rw [hins, hlk] at hiff
        simp at hiff
        exact hiff
      subst hex
      rw [if_neg (fun hc => by exact absurd hc.1 (by simp))]
      have hkeys : ∀ s, (alookup s st1.tableIndexMap).isSome ↔
          (s = f.TableName ∨ (alookup s st.tableIndexMap).isSome) := by
        intro s
        have := insertTable_keys charSet st f s
        rw [hins] at this
        exact this
      apply ih st1
      rcases h with ⟨g, hg, hgs⟩ | hnd
      · rcases List.mem_cons.mp hg with hgf | hgr
        · subst hgf
          rw [hlk] at hgs
          exact absurd hgs (by simp)
        · exact Or.inl ⟨g, hgr, (hkeys g.TableName).mpr (Or.inr hgs)⟩
      · rw [List.map_cons, List.nodup_cons] at hnd
        push_neg at hnd
        by_cases hmem : f.TableName ∈ rest.map (fun f => f.TableName)
        · obtain ⟨g, hgr, hgs⟩ := List.mem_map.mp hmem
          exact Or.inl ⟨g, hgr, (hkeys g.TableName).mpr (Or.inl hgs)⟩
        · right
          intro hc
          exact hnd hmem hc

/-- With a router, the database-schema pass never errors and produces one
catalog entry per distinct database name. -/
theorem setupDbSchemas_router_ok (charSet : String) :
    ∀ (l : List FileInfo) (st : SetupState), DbKeysInv st →
    ∃ st', setupDbSchemas charSet true st l = .ok st' ∧ DbKeysInv st' ∧
      (∀ s, s ∈ st'.dbs.map MDDatabaseMeta.Name ↔
        (s ∈ st.dbs.map MDDatabaseMeta.Name ∨
          s ∈ l.map (fun f => f.TableName.Schema))) ∧
      ((st.dbs.map MDDatabaseMeta.Name).Nodup →
        (st'.dbs.map MDDatabaseMeta.Name).Nodup) := by
  intro l
  induction l with
  | nil =>
    intro st hinv
    exact ⟨st, rfl, hinv, fun s => by simp, id⟩
  | cons f rest ih =>
    intro st hinv
    unfold setupDbSchemas
    rcases hins : insertDB charSet st f with ⟨st1, idx, dbExists⟩
    dsimp only
    rw [if_neg (fun hc => by exact absurd hc.2 (by simp))]
    cases hlk : alookup f.TableName.Schema st.dbIndexMap with
    | some i =>
      have hst1 : st1 = st := by
        have h2 := insertDB_some_state charSet st f i hlk
        rw [hins] at h2
        exact h2
      obtain ⟨st', hok, hinv', hmem, hnd⟩ := ih st hinv
      refine ⟨st', by rw [hst1]; exact hok, hinv', fun s => ?_, hnd⟩
      rw [hmem s, List.map_cons, List.mem_cons]
      have hfs : f.TableName.Schema ∈ st.dbs.map MDDatabaseMeta.Name :=
        (hinv f.TableName.Schema).mp (by rw [hlk]; rfl)
      constructor
      · rintro (hs | hs)
        · exact Or.inl hs
        · exact Or.inr (Or.inr hs)
      · rintro (hs | hs | hs)
        · exact Or.inl hs
        · exact Or.inl (by rw [hs]; exact hfs)
        · exact Or.inr hs
    | none =>
      have hst1 : st1 = (insertDB charSet st f).1 := by rw [hins]
      have hnames : st1.dbs.map MDDatabaseMeta.Name
          = st.dbs.map MDDatabaseMeta.Name ++ [f.TableName.Schema] := by
        rw [hst1]
        exact insertDB_none_names charSet st f hlk
      have hkeys : ∀ s, (alookup s st1.dbIndexMap).isSome ↔
          (s = f.TableName.Schema ∨ (alookup s st.dbIndexMap).isSome) := by
        intro s
        rw [hst1]
        exact insertDB_none_keys charSet st f hlk s
      have hinv1 : DbKeysInv st1 := by
        intro s
        rw [hkeys s, hnames, List.mem_append]
        constructor
        · rintro (hs | hs)
          · exact Or.inr (by simp [hs])
          · exact Or.inl ((hinv s).mp hs)
        · rintro (hs | hs)
          · exact Or.inr ((hinv s).mpr hs)
          · exact Or.inl (by simpa using hs)
      obtain ⟨st', hok, hinv', hmem, hnd⟩ := ih st1 hinv1
      refine ⟨st', hok, hinv', fun s => ?_, ?_⟩
      · rw [hmem s, hnames]
        simp only [List.mem_append, List.map_cons, List.mem_cons,
          List.not_mem_nil, or_false]
        tauto
      · intro hnodup
        apply hnd
        rw [hnames]
        have hnot : f.TableName.Schema ∉ st.dbs.map MDDatabaseMeta.Name := by
          intro hc
          have h2 := (hinv f.TableName.Schema).mpr hc
          rw [hlk] at h2
          exact absurd h2 (by simp)
        simp [List.nodup_append, hnodup, hnot]

/-- With a router, the table-schema pass never errors: duplicate
(schema, table) keys are tolerated (the duplicate check is guarded by
`s.loader.router == nil`). -/
theorem setupTableSchemas_router_ok (charSet : String) :
    ∀ (l : List FileInfo) (st : SetupState),
    ∃ st', setupTableSchemas charSet true st l = .ok st' := by
  intro l
  induction l with
  | nil => intro st; exact ⟨st, rfl⟩
  | cons f rest ih =>
    intro st
    unfold setupTableSchemas
    rcases hins : insertTable charSet st f with ⟨st1, d, t, de, tableExists⟩
    dsimp only
    rw [if_neg (fun hc => by exact absurd hc.2 (by simp))]
    exact ih st1

/-- C5: without a routing table, inserting a database-schema file whose
database name already exists, or a table-schema file whose (schema, table)
key already exists, fails with an invalid-schema-file error; with a
routing table such duplicates are tolerated for BOTH passes: the
database-schema pass succeeds with exactly one catalog entry per distinct
(routed) name — in particular two database-schema files routed to the
same target name yield one entry and no duplicate-schema error — and the
table-schema pass succeeds on any bucket, duplicate (schema, table) keys
included. -/
theorem c5_duplicate_policy (charSet : String) :
    (∀ (l : List FileInfo) (st : SetupState),
      ((∃ f ∈ l, (alookup f.TableName.Schema st.dbIndexMap).isSome) ∨
        ¬ (l.map (fun f => f.TableName.Schema)).Nodup) →
      ∃ e, setupDbSchemas charSet false st l = .error e ∧
        e.kind = .invalidSchemaFile) ∧
    (∀ (l : List FileInfo) (st : SetupState),
      ((∃ f ∈ l, (alookup f.TableName st.tableIndexMap).isSome) ∨
        ¬ (l.map (fun f => f.TableName)).Nodup) →
      ∃ e, setupTableSchemas charSet false st l = .error e ∧
        e.kind = .invalidSchemaFile) ∧
    (∀ (l : List FileInfo),
      ∃ st', setupDbSchemas charSet true initialSetupState l = .ok st' ∧
        (st'.dbs.map MDDatabaseMeta.Name).Nodup ∧
        (∀ s, s ∈ st'.dbs.map MDDatabaseMeta.Name ↔
          s ∈ l.map (fun f => f.TableName.Schema))) ∧
    (∀ (l : List FileInfo) (st : SetupState),
      ∃ st', setupTableSchemas charSet true st l = .ok st') := by
  refine ⟨setupDbSchemas_norouter_dup charSet,
          setupTableSchemas_norouter_dup charSet, ?_,
          setupTableSchemas_router_ok charSet⟩
  intro l
  have hinv0 : DbKeysInv initialSetupState := by
    intro s
    simp [initialSetupState, alookup]
  obtain ⟨st', hok, _, hmem, hnd⟩ := setupDbSchemas_router_ok charSet l
    initialSetupState hinv0
  refine ⟨st', hok, hnd (by simp [initialSetupState]), fun s => ?_⟩
  rw [hmem s]
  simp [initialSetupState]

/-- C5 witness: concrete duplicated database names and table keys fail
without a router; with a router the same two database-schema files routed
to one target name succeed with exactly the single database entry `x`,
and the duplicated table keys are tolerated by the table-schema pass. -/
theorem c5_witness :
    (∃ e, setupDbSchemas "utf8mb4" false initialSetupState
        [mkDbSchemaFile "x" "a.sql" 1, mkDbSchemaFile "x" "b.sql" 2]
        = .error e ∧ e.kind = .invalidSchemaFile) ∧
    (∃ e, setupTableSchemas "utf8mb4" false initialSetupState
        [mkTblSchemaFile "d" "t" "d.t.sql", mkTblSchemaFile "d" "t" "d.t.copy.sql"]
        = .error e ∧ e.kind = .invalidSchemaFile) ∧
    (∃ st', setupDbSchemas "utf8mb4" true initialSetupState
        [mkDbSchemaFile "x" "a.sql" 1, mkDbSchemaFile "x" "b.sql" 2] = .ok st' ∧
      (st'.dbs.map MDDatabaseMeta.Name).Nodup ∧
      (∀ s, s ∈ st'.dbs.map MDDatabaseMeta.Name ↔
        s ∈ [mkDbSchemaFile "x" "a.sql" 1,
              mkDbSchemaFile "x" "b.sql" 2].map (fun f => f.TableName.Schema))) ∧
    (∃ st', setupTableSchemas "utf8mb4" true initialSetupState
        [mkTblSchemaFile "d" "t" "d.t.sql", mkTblSchemaFile "d" "t" "d.t.copy.sql"]
        = .ok st') :=
  ⟨(c5_duplicate_policy "utf8mb4").1 _ initialSetupState (Or.inr (by decide)),
   (c5_duplicate_policy "utf8mb4").2.1 _ initialSetupState (Or.inr (by decide)),
   (c5_duplicate_policy "utf8mb4").2.2.1 _,
   (c5_duplicate_policy "utf8mb4").2.2.2 _ initialSetupState⟩
/-! ## C6: orphan views are rejected; hosted views are appended -/

theorem getD_set_self {α : Type} [Inhabited α] (l : List α) (i : Nat) (x : α)
    (h : i < l.length) : (l.set i x).getD i default = x := by
  simp [List.getD_eq_getElem?_getD, List.getElem?_set_self h]

theorem getD_set_ne {α : Type} [Inhabited α] (l : List α) {i j : Nat} (x : α)
    (h : i ≠ j) : (l.set i x).getD j default = l.getD j default := by
  simp [List.getD_eq_getElem?_getD, List.getElem?_set_ne h]

theorem getD_append_left {α : Type} [Inhabited α] (l l' : List α) (i : Nat)
    (h : i < l.length) : (l ++ l').getD i default = l.getD i default := by
  simp [List.getD_eq_getElem?_getD, List.getElem?_append_left h]

/-- Index-correctness of the database index map: every binding points at a
live catalog entry with the right name. -/
def IdxInv (st : SetupState) : Prop :=
  ∀ s i, alookup s st.dbIndexMap = some i →
    i < st.dbs.length ∧ (st.dbs.getD i default).Name = s

/-- `insertDB` never shrinks the catalog. -/
theorem insertDB_dbs_len (charSet : String) (st : SetupState) (f : FileInfo) :
    st.dbs.length ≤ (insertDB charSet st f).1.dbs.length := by
  unfold insertDB
  cases alookup f.TableName.Schema st.dbIndexMap with
  | some i => exact le_refl _
  | none => simp

/-- `insertDB` leaves existing catalog entries in place. -/
theorem insertDB_dbs_getD (charSet : String) (st : SetupState) (f : FileInfo)
    (j : Nat) (hj : j < st.dbs.length) :
    (insertDB charSet st f).1.dbs.getD j default = st.dbs.getD j default := by
  unfold insertDB
  cases alookup f.TableName.Schema st.dbIndexMap with
  | some i => rfl
  | none => exact getD_append_left _ _ _ hj

/-- `insertDB` preserves index-correctness. -/
theorem insertDB_IdxInv (charSet : String) (st : SetupState) (f : FileInfo)
    (h : IdxInv st) : IdxInv (insertDB charSet st f).1 := by
  intro s i hi
  unfold insertDB at hi ⊢
  cases hlk : alookup f.TableName.Schema st.dbIndexMap with
  | some j =>
    rw [hlk] at hi
    exact h s i hi
  | none =>
    rw [hlk] at hi
    dsimp only at hi ⊢
    by_cases hs : f.TableName.Schema = s
    · subst hs
      rw [alookup_ainsert_self] at hi
      injection hi with hi
      subst hi
      refine ⟨by simp, ?_⟩
      rw [List.getD_eq_getElem?_getD]
      rw [List.getElem?_append_right (by omega)]
      simp
    · rw [alookup_ainsert_ne _ _ hs] at hi
      obtain ⟨hlt, hname⟩ := h s i hi
      refine ⟨by simp; omega, ?_⟩
      rw [getD_append_left _ _ _ hlt]
      exact hname

/-- The index returned by `insertDB` points at a database with the file's
schema name. -/
theorem insertDB_result_idx (charSet : String) (st : SetupState) (f : FileInfo)
    (st1 : SetupState) (idx : Nat) (b : Bool)
    (hins : insertDB charSet st f = (st1, idx, b)) (hinv : IdxInv st) :
    idx < st1.dbs.length ∧ (st1.dbs.getD idx default).Name = f.TableName.Schema := by
  unfold insertDB at hins
  cases hlk : alookup f.TableName.Schema st.dbIndexMap with
  | some j =>
    rw [hlk] at hins
    injection hins with h1 h2
    injection h2 with h2 h3
    subst h1 h2
    exact hinv _ _ hlk
  | none =>
    rw [hlk] at hins
    dsimp only at hins
    injection hins with h1 h2
    injection h2 with h2 h3
    subst h1 h2
    refine ⟨by simp, ?_⟩
    rw [List.getD_eq_getElem?_getD, List.getElem?_append_right (by omega)]
    simp

/-- `v` is recorded as a view of the database carrying its schema name. -/
def HasView (st : SetupState) (v : FileInfo) : Prop :=
  ∃ j, j < st.dbs.length ∧
    (st.dbs.getD j default).Name = v.TableName.Schema ∧
    ∃ m ∈ (st.dbs.getD j default).Views, m.SchemaFile = v ∧
      m.Name = v.TableName.Name ∧ m.DB = v.TableName.Schema

/-- `insertDB` preserves recorded views. -/
theorem HasView_insertDB (charSet : String) (st : SetupState) (f w : FileInfo)
    (h : HasView st w) : HasView (insertDB charSet st f).1 w := by
  obtain ⟨j, hj, hname, m, hm, hmf⟩ := h
  exact ⟨j, lt_of_lt_of_le hj (insertDB_dbs_len charSet st f),
    by rw [insertDB_dbs_getD charSet st f j hj]; exact hname,
    m, by rw [insertDB_dbs_getD charSet st f j hj]; exact hm, hmf⟩

/-- `insertView` leaves the table index map untouched. -/
theorem insertView_tableIndexMap (charSet : String) (st : SetupState) (f : FileInfo) :
    (insertView charSet st f).1.tableIndexMap = st.tableIndexMap := by
  unfold insertView
  rcases hins : insertDB charSet st (dummyDBFileInfo f.TableName.Schema)
    with ⟨st1, idx, dbExists⟩
  have hmap : st1.tableIndexMap = st.tableIndexMap := by
    have h := insertDB_tableIndexMap charSet st (dummyDBFileInfo f.TableName.Schema)
    rw [hins] at h
    exact h
  dsimp only
  cases alookup f.TableName st1.tableIndexMap with
  | some i => exact hmap
  | none => exact hmap

/-- `insertView` reports a hosted view iff its table key is indexed. -/
theorem insertView_exists_iff (charSet : String) (st : SetupState) (f : FileInfo) :
    (insertView charSet st f).2.2 = true ↔
      (alookup f.TableName st.tableIndexMap).isSome := by
  unfold insertView
  rcases hins : insertDB charSet st (dummyDBFileInfo f.TableName.Schema)
    with ⟨st1, idx, dbExists⟩
  have hmap : st1.tableIndexMap = st.tableIndexMap := by
    have h := insertDB_tableIndexMap charSet st (dummyDBFileInfo f.TableName.Schema)
    rw [hins] at h
    exact h
  dsimp only
  rw [hmap]
  cases alookup f.TableName st.tableIndexMap <;> simp

/-- A hosted `insertView` appends the view meta to the database named by
its schema, preserves all recorded views, the table index map and
index-correctness. -/
theorem insertView_present (charSet : String) (st : SetupState) (f : FileInfo)
    (st2 : SetupState) (de te : Bool)
    (hins : insertView charSet st f = (st2, de, te)) (hinv : IdxInv st)
    (hk : (alookup f.TableName st.tableIndexMap).isSome) :
    te = true ∧ HasView st2 f ∧ (∀ w, HasView st w → HasView st2 w) ∧
      st2.tableIndexMap = st.tableIndexMap ∧ IdxInv st2 := by
  unfold insertView at hins
  rcases hins1 : insertDB charSet st (dummyDBFileInfo f.TableName.Schema)
    with ⟨st1, dbIdx, dbE⟩
  rw [hins1] at hins
  dsimp only at hins
  have hmap : st1.tableIndexMap = st.tableIndexMap := by
    have h := insertDB_tableIndexMap charSet st (dummyDBFileInfo f.TableName.Schema)
    rw [hins1] at h
    exact h
  have hinv1 : IdxInv st1 := by
    have h := insertDB_IdxInv charSet st (dummyDBFileInfo f.TableName.Schema) hinv
    rw [hins1] at h
    exact h
  obtain ⟨hidx, hidxname⟩ :=
    insertDB_result_idx charSet st (dummyDBFileInfo f.TableName.Schema)
      st1 dbIdx dbE hins1 hinv
  cases hlk : alookup f.TableName st1.tableIndexMap with
  | none =>
    rw [hmap] at hlk
    rw [hlk] at hk
    exact absurd hk (by simp)
  | some ti =>
    rw [hlk] at hins
    dsimp only at hins
    injection hins with h1 h2
    injection h2 with h2 h3
    subst h1 h2 h3
    refine ⟨rfl, ?_, ?_, hmap, ?_⟩
    · refine ⟨dbIdx, by simpa using hidx, ?_, ?_⟩
      · rw [getD_set_self _ _ _ hidx]
        simpa [dummyDBFileInfo] using hidxname
      · refine ⟨MDTableMeta.mk f.TableName.Schema f.TableName.Name f [] charSet 0 true,
          ?_, rfl, rfl, rfl⟩
        rw [getD_set_self _ _ _ hidx]
        simp
    · intro w hw
      have hw1 : HasView st1 w := by
        have h := HasView_insertDB charSet st (dummyDBFileInfo f.TableName.Schema) w hw
        rw [hins1] at h
        exact h
      obtain ⟨j, hj, hname, m, hm, hmf⟩ := hw1
      by_cases hij : dbIdx = j
      · subst hij
        refine ⟨dbIdx, by simpa using hj, ?_, m, ?_, hmf⟩
        · rw [getD_set_self _ _ _ hidx]
          exact hname
        · rw [getD_set_self _ _ _ hidx]
          exact List.mem_append_left _ hm
      · refine ⟨j, by simpa using hj, ?_, m, ?_, hmf⟩
        · rw [getD_set_ne _ _ hij]
          exact hname
        · rw [getD_set_ne _ _ hij]
          exact hm
    · intro s i hi
      dsimp only at hi
      obtain ⟨hlt, hname⟩ := hinv1 s i hi
      by_cases hij : dbIdx = i
      · subst hij
        refine ⟨by simpa using hlt, ?_⟩
        rw [getD_set_self _ _ _ hidx]
        simpa using hname
      · refine ⟨by simpa using hlt, ?_⟩
        rw [getD_set_ne _ _ hij]
        exact hname

/-- The view pass errors (invalid schema file) whenever some view's table
key was never registered. -/
theorem setupViewSchemas_orphan (charSet : String) :
    ∀ (l : List FileInfo) (st : SetupState),
    (∃ v ∈ l, alookup v.TableName st.tableIndexMap = none) →
    ∃ e, setupViewSchemas charSet st l = .error e ∧
      e.kind = .invalidSchemaFile := by
  intro l
  induction l with
  | nil =>
    intro st h
    obtain ⟨v, hv, _⟩ := h
    exact absurd hv (List.not_mem_nil v)
  | cons f rest ih =>
    intro st h
    unfold setupViewSchemas
    rcases hins : insertView charSet st f with ⟨st1, de, te⟩
    dsimp only
    cases hlk : alookup f.TableName st.tableIndexMap with
    | none =>
      have hte : te = false := by
        have hiff := insertView_exists_iff charSet st f
        rw [hins, hlk] at hiff
        simpa using hiff
      subst hte
      rw [if_pos rfl]
      exact ⟨_, rfl, rfl⟩
    | some ti =>
      have hte : te = true := by
        have hiff := insertView_exists_iff charSet st f
        rw [hins, hlk] at hiff
        simpa using hiff
      subst hte
      rw [if_neg (by simp)]
      have hmap : st1.tableIndexMap = st.tableIndexMap := by
        have h2 := insertView_tableIndexMap charSet st f
        rw [hins] at h2
        exact h2
      apply ih st1
      obtain ⟨v, hv, hvn⟩ := h
      rcases List.mem_cons.mp hv with hvf | hvr
      · subst hvf
        rw [hlk] at hvn
        cases hvn
      · exact ⟨v, hvr, by rw [hmap]; exact hvn⟩

/-- When every view's table key is registered, the view pass succeeds,
records every view under the database carrying its schema name, and keeps
all previously recorded views. -/
theorem setupViewSchemas_ok (charSet : String) :
    ∀ (l : List FileInfo) (st : SetupState), IdxInv st →
    (∀ v ∈ l, (alookup v.TableName st.tableIndexMap).isSome) →
    ∃ st', setupViewSchemas charSet st l = .ok st' ∧
      (∀ w, HasView st w → HasView st' w) ∧
      (∀ v ∈ l, HasView st' v) := by
  intro l
  induction l with
  | nil =>
    intro st hinv _
    exact ⟨st, rfl, fun w hw => hw, fun v hv => absurd hv (List.not_mem_nil v)⟩
  | cons f rest ih =>
    intro st hinv hall
    unfold setupViewSchemas
    rcases hins : insertView charSet st f with ⟨st1, de, te⟩
    dsimp only
    obtain ⟨hte, hhas, hpres, hmap, hinv1⟩ :=
      insertView_present charSet st f st1 de te hins hinv
        (hall f (List.mem_cons_self f rest))
    subst hte
    rw [if_neg (by simp)]
    obtain ⟨st', hok, hpres', hviews⟩ := ih st1 hinv1
      (fun v hv => by rw [hmap]; exact hall v (List.mem_cons_of_mem f hv))
    refine ⟨st', hok, fun w hw => hpres' w (hpres w hw), fun v hv => ?_⟩
    rcases List.mem_cons.mp hv with hvf | hvr
    · subst hvf
      exact hpres' v hhas
    · exact hviews v hvr

/-- C6 (amended): a view-schema file whose (schema, table) pair was never
registered by a TABLE-SCHEMA file makes the view pass fail with an
invalid-schema-file error naming the orphan view, never silently dropping
it; data files do NOT count as registration, because they are processed
after the view pass.  When every view's pair is registered, the pass
succeeds and each view is appended to the view list of the database
carrying its schema name. -/
theorem c6_orphan_views (charSet : String) :
    (∀ (l : List FileInfo) (st : SetupState),
      (∃ v ∈ l, alookup v.TableName st.tableIndexMap = none) →
      ∃ e, setupViewSchemas charSet st l = .error e ∧
        e.kind = .invalidSchemaFile) ∧
    (∀ (l : List FileInfo) (st : SetupState), IdxInv st →
      (∀ v ∈ l, (alookup v.TableName st.tableIndexMap).isSome) →
      ∃ st', setupViewSchemas charSet st l = .ok st' ∧
        (∀ w, HasView st w → HasView st' w) ∧
        (∀ v ∈ l, HasView st' v)) :=
  ⟨setupViewSchemas_orphan charSet, setupViewSchemas_ok charSet⟩

/-- C6 counterexample: the claim counts registration "by a table-schema
file or a data file".  Here the pair (db1, v1) is registered by a data
file, so by the claim the host table exists and the view must be appended
with no failure — but the load fails with the orphan-view error, because
views are assembled before data files. -/
theorem c6_counterexample :
    setupFromBuckets "utf8mb4" none
      ⟨[mkDbSchemaFile "db1" "db1-schema-create.sql" 1], [],
       [mkViewSchemaFile "db1" "v1" "db1.v1-view.sql"],
       [mkDataFile "db1" "v1" "db1.v1.sql" "" 9]⟩ none
      = .failed ⟨.invalidSchemaFile,
          "invalid view schema file, miss host table schema for view 'v1'"⟩ := by
  decide

/-- A one-database, one-table state for the C6 witness. -/
def c6state : SetupState :=
  { dbs := [{ Name := "db1", SchemaFile := dummyDBFileInfo "db1", Tables := [],
              Views := [], charSet := "utf8mb4" }],
    dbIndexMap := [("db1", 0)],
    tableIndexMap := [(⟨"db1", "t1"⟩, 0)] }

theorem c6state_idxinv : IdxInv c6state := by
  intro s i h
  unfold c6state alookup at h
  split at h
  next heq =>
    injection h with h
    subst h
    exact ⟨by decide, by simpa [c6state] using heq⟩
  next => cases h

/-- C6 witness: the orphan error and the hosted append, both concrete. -/
theorem c6_witness :
    (∃ e, setupViewSchemas "utf8mb4" initialSetupState
        [mkViewSchemaFile "db1" "v1" "db1.v1-view.sql"] = .error e ∧
      e.kind = .invalidSchemaFile) ∧
    (∃ st', setupViewSchemas "utf8mb4" c6state
        [mkViewSchemaFile "db1" "t1" "db1.t1-view.sql"] = .ok st' ∧
      (∀ w, HasView c6state w → HasView st' w) ∧
      (∀ v ∈ [mkViewSchemaFile "db1" "t1" "db1.t1-view.sql"], HasView st' v)) :=
  ⟨(c6_orphan_views "utf8mb4").1 _ initialSetupState
      ⟨mkViewSchemaFile "db1" "v1" "db1.v1-view.sql", by simp, by decide⟩,
   (c6_orphan_views "utf8mb4").2 _ c6state c6state_idxinv
      (by
        intro v hv
        rw [List.mem_singleton] at hv
        subst hv
        decide)⟩

/-! ## C1: the published catalog is stably sorted -/

theorem strLE_refl : ∀ as : List Char, strLE as as = true := by
  intro as
  induction as with
  | nil => rfl
  | cons a rest ih => simpa [strLE, lt_irrefl] using ih

/-- Inserting into a list commutes with filtering by a tied predicate:
the new element lands in front of every element it ties with. -/
theorem filter_orderedInsert {α : Type} (r : α → α → Prop) [DecidableRel r]
    (p : α → Bool) (htie : ∀ a b, p a = true → p b = true → r a b) (x : α) :
    ∀ l : List α,
    (l.orderedInsert r x).filter p =
      if p x then x :: l.filter p else l.filter p := by
  intro l
  induction l with
  | nil => simp [List.orderedInsert, List.filter_cons]
  | cons b l ih =>
    by_cases hrb : r x b
    · rw [List.orderedInsert, if_pos hrb, List.filter_cons]
    · rw [List.orderedInsert, if_neg hrb, List.filter_cons, ih]
      by_cases hpx : p x
      · have hpb : p b = false := by
          cases hb : p b with
          | false => rfl
          | true => exact absurd (htie x b hpx hb) hrb
        simp [hpx, hpb, List.filter_cons]
      · simp [hpx, List.filter_cons]

/-- A stable sort does not reorder elements that tie under the sort
relation: filtering the sorted list by any tied predicate returns the
original filtered list. -/
theorem filter_insertionSort {α : Type} (r : α → α → Prop) [DecidableRel r]
    (p : α → Bool) (htie : ∀ a b, p a = true → p b = true → r a b) :
    ∀ l : List α, (l.insertionSort r).filter p = l.filter p := by
  intro l
  induction l with
  | nil => rfl
  | cons a l ih =>
    rw [List.insertionSort, filter_orderedInsert r p htie, ih, List.filter_cons]

/-- C1: after a successful load (also the degraded too-many-files load),
every database's table list is stably sorted ascending by total size with
adjacent pairs satisfying `TotalSize ≤`, and every table's data-file list
is stably sorted ascending by sort key: there is a pre-sort table list
from which the published one arises by the stable sort, elements tying on
total size keep their prior relative order (filter equality), and data
files tying on sort key keep their prior relative order. -/
theorem c1_catalog_sorted (charSet : String)
    (classify : String → Except String (Option RouteResult))
    (ms : String → Bool) (mt : String → String → Bool) (maxScan : Int)
    (router? : Option RouteFn) (entries : List (String × Int))
    (cat : List MDDatabaseMeta) (gerr : Option LoadError)
    (h : setupGo charSet classify ms mt maxScan router? entries = .ok (cat, gerr)) :
    ∀ db ∈ cat,
      db.Tables.Chain' tableSizeLE ∧
      (∀ t ∈ db.Tables, t.DataFiles.Chain' fileSortKeyLE) ∧
      ∃ preTables : List MDTableMeta,
        db.Tables = (preTables.insertionSort tableSizeLE).map sortTableFiles ∧
        (∀ v : Int, db.Tables.filter (fun t => t.TotalSize = v)
          = (preTables.map sortTableFiles).filter (fun t => t.TotalSize = v)) ∧
        (∀ t ∈ preTables, ∀ k : String,
          (t.DataFiles.insertionSort fileSortKeyLE).filter
              (fun fi => fi.FileMeta.SortKey = k)
            = t.DataFiles.filter (fun fi => fi.FileMeta.SortKey = k)) := by
  obtain ⟨_, pre, hcat⟩ :=
    setupGo_ok_shape charSet classify ms mt maxScan router? entries cat gerr h
  subst hcat
  intro db hdb
  rw [sortDBs, List.mem_map] at hdb
  obtain ⟨predb, _, hF⟩ := hdb
  have hTables : db.Tables
      = (predb.Tables.insertionSort tableSizeLE).map sortTableFiles := by
    rw [← hF]
  have hsortkey_tie : ∀ (k : String) (a b : FileInfo),
      decide (a.FileMeta.SortKey = k) = true →
      decide (b.FileMeta.SortKey = k) = true → fileSortKeyLE a b := by
    intro k a b ha hb
    have ha' := of_decide_eq_true ha
    have hb' := of_decide_eq_true hb
    unfold fileSortKeyLE
    rw [ha', hb']
    exact strLE_refl _
  refine ⟨?_, ?_, predb.Tables, hTables, ?_, ?_⟩
  · rw [hTables]
    apply List.Pairwise.chain'
    apply List.Pairwise.map
    · intro a b hab
      exact hab
    · exact List.sorted_insertionSort tableSizeLE predb.Tables
  · intro t ht
    rw [hTables, List.mem_map] at ht
    obtain ⟨t0, _, hts⟩ := ht
    rw [← hts]
    apply List.Pairwise.chain'
    exact List.sorted_insertionSort fileSortKeyLE t0.DataFiles
  · intro v
    rw [hTables, List.filter_map, List.filter_map]
    congr 1
    have hcongr : ∀ l : List MDTableMeta,
        l.filter ((fun t => decide (t.TotalSize = v)) ∘ sortTableFiles)
          = l.filter (fun t => decide (t.TotalSize = v)) := by
      intro l
      apply List.filter_congr
      intro t _
      rfl
    rw [hcongr, hcongr]
    apply filter_insertionSort
    intro a b ha hb
    have ha' := of_decide_eq_true ha
    have hb' := of_decide_eq_true hb
    unfold tableSizeLE
    rw [ha', hb']
  · intro t _ k
    exact filter_insertionSort fileSortKeyLE _ (hsortkey_tie k) t.DataFiles

/-- C1 witness: the single database of the end-to-end scenario catalog. -/
theorem c1_witness :
    (exCatalog.getD 0 default).Tables.Chain' tableSizeLE ∧
    (∀ t ∈ (exCatalog.getD 0 default).Tables,
      t.DataFiles.Chain' fileSortKeyLE) ∧
    ∃ preTables : List MDTableMeta,
      (exCatalog.getD 0 default).Tables
        = (preTables.insertionSort tableSizeLE).map sortTableFiles ∧
      (∀ v : Int, (exCatalog.getD 0 default).Tables.filter
          (fun t => t.TotalSize = v)
        = (preTables.map sortTableFiles).filter (fun t => t.TotalSize = v)) ∧
      (∀ t ∈ preTables, ∀ k : String,
        (t.DataFiles.insertionSort fileSortKeyLE).filter
            (fun fi => fi.FileMeta.SortKey = k)
          = t.DataFiles.filter (fun fi => fi.FileMeta.SortKey = k)) :=
  c1_catalog_sorted "utf8mb4" exClassify (fun _ => true) (fun _ _ => true) 0
    none exEntries exCatalog none rfl (exCatalog.getD 0 default) (by decide)

end MyDump
